import Mathlib

/-!
# CHIP-8 interpreter: shallow embedding of `chip8.hpp` / `chip8.cpp`

The C++ class `Chip8` becomes a structure of the same name.  Fixed-size arrays
(`std::array<T, N>`) are total functions on `Nat`; every `.at(i)` of the source is an
explicit bounds check against `N` that throws `std::out_of_range`.  Machine integers
are `Nat` with an explicit reduction modulo `2^w` at every store into a `uint8_t` or
`uint16_t` object.  The two impure inputs of `execute` (the byte drawn from the random
generator and the sampled wall-clock time in milliseconds) are explicit arguments.

A C++ exception leaves the object in the state reached at the `throw`; the embedding
therefore returns that state together with the error.
-/

/-- The exceptions raised by the interpreter. -/
inductive Error where
  /-- Raised by `unknown_opcode`: `std::runtime_error("Unknown opcode: " + hex opcode)`. -/
  | unknown_opcode (opcode : Nat)
  /-- Raised by `std::array::at` and `std::bitset::flip`: `std::out_of_range`. -/
  | out_of_range
  deriving DecidableEq

/-- Data members of `class Chip8` (`chip8.hpp`), random generator excluded. -/
structure Chip8 where
  /-- Member `uint16_t opcode`. -/
  opcode : Nat
  /-- Member `std::array<uint8_t, 4096> memory`. -/
  memory : Nat → Nat
  /-- Member `std::array<uint8_t, 16> reg`. -/
  reg : Nat → Nat
  /-- Member `uint16_t I`. -/
  I : Nat
  /-- Member `uint16_t PC`. -/
  PC : Nat
  /-- Member `std::array<uint16_t, 16> stack`. -/
  stack : Nat → Nat
  /-- Member `uint8_t SP`. -/
  SP : Nat
  /-- Member `std::array<std::bitset<WIDTH>, HEIGHT> screen`, indexed row then column. -/
  screen : Nat → Nat → Bool
  /-- Member `uint8_t delay_timer`. -/
  delay_timer : Nat
  /-- Member `uint8_t sound_timer`. -/
  sound_timer : Nat
  /-- Member `bool wait_for_key`. -/
  wait_for_key : Bool
  /-- Member `std::array<bool, 16> key`. -/
  key : Nat → Bool
  /-- Member `bool draw_pending`. -/
  draw_pending : Bool
  /-- Member `last_timer_update_ms` (a signed `long`). -/
  last_timer_update_ms : Int

/-- Result of a member function that may throw: the object after a normal return, or the
exception together with the object as it stands at the `throw`. -/
inductive Outcome where
  | ok (s : Chip8)
  | threw (e : Error) (s : Chip8)

/-- Control flow out of a block of statements of `execute`: fall through to the next
statement, leave the function through `return;`, or throw. -/
inductive Ctl where
  | next (s : Chip8)
  | returned (s : Chip8)
  | threw (e : Error) (s : Chip8)

/-- Sequencing of statements: when the block `r` falls through, `f` runs on the state it
left; a `return;` or an exception in `r` skips `f`. -/
def Ctl.and_then (r : Ctl) (f : Chip8 → Ctl) : Ctl :=
  match r with
  | Ctl.next s => f s
  | Ctl.returned s => Ctl.returned s
  | Ctl.threw e s => Ctl.threw e s

namespace Chip8

/-- Constant `Chip8::WIDTH`. -/
def WIDTH : Nat := 64

/-- Constant `Chip8::HEIGHT`. -/
def HEIGHT : Nat := 32

/-- Constant table `Chip8::font`: 16 glyphs of 5 bytes. -/
def font : List Nat :=
  [0xF0, 0x90, 0x90, 0x90, 0xF0,
   0x20, 0x60, 0x20, 0x20, 0x70,
   0xF0, 0x10, 0xF0, 0x80, 0xF0,
   0xF0, 0x10, 0xF0, 0x10, 0xF0,
   0x90, 0x90, 0xF0, 0x10, 0x10,
   0xF0, 0x80, 0xF0, 0x10, 0xF0,
   0xF0, 0x80, 0xF0, 0x90, 0xF0,
   0xF0, 0x10, 0x20, 0x40, 0x40,
   0xF0, 0x90, 0xF0, 0x90, 0xF0,
   0xF0, 0x90, 0xF0, 0x10, 0xF0,
   0xF0, 0x90, 0xF0, 0x90, 0x90,
   0xE0, 0x90, 0xE0, 0x90, 0xE0,
   0xF0, 0x80, 0x80, 0x80, 0xF0,
   0xE0, 0x90, 0x90, 0x90, 0xE0,
   0xF0, 0x80, 0xF0, 0x80, 0xF0,
   0xF0, 0x80, 0xF0, 0x80, 0x80]

/-- Member function `clear_screen`: every row is reset, then `draw_pending = true`. -/
def clear_screen (s : Chip8) : Chip8 :=
  { s with screen := fun _ _ => false, draw_pending := true }

/-- Member function `reset`.  The member `wait_for_key` is not assigned by the source. -/
def reset (s : Chip8) : Chip8 :=
  let s := { s with PC := 0x200, I := 0, SP := 0, opcode := 0 }
  let s := { s with stack := fun _ => 0 }
  let s := { s with reg := fun _ => 0 }
  let s := { s with memory := fun _ => 0 }
  -- std::copy(font.begin(), font.end(), memory.begin())
  let s := { s with memory := fun a => if a < font.length then font.getD a 0 else s.memory a }
  let s := { s with key := fun _ => false }
  let s := clear_screen s
  let s := { s with delay_timer := 0, sound_timer := 0 }
  let s := { s with last_timer_update_ms := 0 }
  { s with draw_pending := false }

/-- Member function `is_draw_pending`. -/
def is_draw_pending (s : Chip8) : Bool := s.draw_pending

/-- Member function `clear_draw_pending`. -/
def clear_draw_pending (s : Chip8) : Chip8 := { s with draw_pending := false }

/-- Member function `get_screen`. -/
def get_screen (s : Chip8) : Nat → Nat → Bool := s.screen

/-- Member function `key_down`: `key.at(i) = true`. -/
def key_down (s : Chip8) (i : Nat) : Outcome :=
  if i < 16 then Outcome.ok { s with key := Function.update s.key i true }
  else Outcome.threw Error.out_of_range s

/-- Member function `key_up`: `key.at(i) = false`. -/
def key_up (s : Chip8) (i : Nat) : Outcome :=
  if i < 16 then Outcome.ok { s with key := Function.update s.key i false }
  else Outcome.threw Error.out_of_range s

/-- Member function `load_rom`, with the bytes read from the file as the argument `rom`.
After `reset`, `std::copy` stores byte `k` of the file at `memory.begin() + PC + k`; the
source performs no bounds check and the function is `noexcept`, so there is no error
result.  Cells of `memory` at index 4096 and above stand for the bytes that follow the
array object: a store there is a write past the end of `memory`. -/
def load_rom (s : Chip8) (rom : List Nat) : Chip8 :=
  let s := reset s
  { s with memory := fun a =>
      if s.PC ≤ a ∧ a - s.PC < rom.length then rom.getD (a - s.PC) 0 % 256 else s.memory a }

/-- Member function `unknown_opcode`: always throws, carrying the member `opcode`. -/
def unknown_opcode (s : Chip8) : Ctl :=
  Ctl.threw (Error.unknown_opcode s.opcode) s

/-- Bounds check performed by `std::array::at(i)` on an array of `size` elements (and by
`std::bitset::flip`): continue with `k` when `i < size`, otherwise throw
`std::out_of_range` from the current object state `s`. -/
def at_check (s : Chip8) (size i : Nat) (k : Ctl) : Ctl :=
  if i < size then k else Ctl.threw Error.out_of_range s

/-- Counted loop `for (i = start; i < start + count; ++i) body`, left early when the body
throws or returns. -/
def for_loop (body : Nat → Chip8 → Ctl) : Nat → Nat → Chip8 → Ctl
  | 0, _, s => Ctl.next s
  | count + 1, i, s =>
    (body i s).and_then (for_loop body count (i + 1))

/-- Statement `PC += n` on the `uint16_t` program counter. -/
def advance (s : Chip8) (n : Nat) : Chip8 :=
  { s with PC := (s.PC + n) % 65536 }

/-- Opcode fetch at the top of `execute`:
`opcode = memory.at(PC); opcode <<= 8U; opcode |= memory.at(PC + 1);`. -/
def fetch (s : Chip8) : Ctl :=
  at_check s 4096 s.PC <|
  let s1 := { s with opcode := s.memory s.PC }
  let s2 := { s1 with opcode := (s1.opcode <<< 8) % 65536 }
  at_check s2 4096 (s2.PC + 1) <|
  Ctl.next { s2 with opcode := s2.opcode ||| s2.memory (s2.PC + 1) }

/-- Inner `switch (opcode & 0x000F)` of `case 0x8000` (without the trailing `PC += 2`). -/
def alu (s : Chip8) (x y : Nat) : Ctl :=
  let sub := s.opcode &&& 0x000F
  if sub = 0x0000 then
    -- reg.at(x) = reg.at(y)
    at_check s 16 y <| at_check s 16 x <|
    Ctl.next { s with reg := Function.update s.reg x (s.reg y) }
  else if sub = 0x0001 then
    -- reg.at(x) |= reg.at(y)
    at_check s 16 y <| at_check s 16 x <|
    Ctl.next { s with reg := Function.update s.reg x (s.reg x ||| s.reg y) }
  else if sub = 0x0002 then
    -- reg.at(x) &= reg.at(y)
    at_check s 16 y <| at_check s 16 x <|
    Ctl.next { s with reg := Function.update s.reg x (s.reg x &&& s.reg y) }
  else if sub = 0x0003 then
    -- reg.at(x) ^= reg.at(y)
    at_check s 16 y <| at_check s 16 x <|
    Ctl.next { s with reg := Function.update s.reg x (s.reg x ^^^ s.reg y) }
  else if sub = 0x0004 then
    at_check s 16 x <|
    let x16 := s.reg x
    at_check s 16 y <|
    let y16 := s.reg y
    -- reg.at(0xF) = x16 + y16 > 0xFF ? 1 : 0
    let s1 := { s with reg := Function.update s.reg 0xF (if x16 + y16 > 0xFF then 1 else 0) }
    -- reg.at(x) += reg.at(y)
    at_check s1 16 y <| at_check s1 16 x <|
    Ctl.next { s1 with reg := Function.update s1.reg x ((s1.reg x + s1.reg y) % 256) }
  else if sub = 0x0005 then
    at_check s 16 x <| at_check s 16 y <|
    -- reg.at(0xF) = reg.at(x) > reg.at(y) ? 1 : 0
    let s1 := { s with reg := Function.update s.reg 0xF (if s.reg x > s.reg y then 1 else 0) }
    -- reg.at(x) -= reg.at(y)
    at_check s1 16 y <| at_check s1 16 x <|
    let diff := Int.toNat (((s1.reg x : Int) - (s1.reg y : Int)) % 256)
    Ctl.next { s1 with reg := Function.update s1.reg x diff }
  else if sub = 0x0006 then
    at_check s 16 x <|
    -- reg.at(0xF) = reg.at(x) & 1U
    let s1 := { s with reg := Function.update s.reg 0xF (s.reg x &&& 1) }
    -- reg.at(x) >>= 1U
    at_check s1 16 x <|
    Ctl.next { s1 with reg := Function.update s1.reg x (s1.reg x >>> 1) }
  else if sub = 0x0007 then
    at_check s 16 y <| at_check s 16 x <|
    -- reg.at(0xF) = reg.at(y) > reg.at(x) ? 1 : 0
    let s1 := { s with reg := Function.update s.reg 0xF (if s.reg y > s.reg x then 1 else 0) }
    -- reg.at(x) = reg.at(y) - reg.at(x)
    at_check s1 16 y <| at_check s1 16 x <|
    let diff := Int.toNat (((s1.reg y : Int) - (s1.reg x : Int)) % 256)
    Ctl.next { s1 with reg := Function.update s1.reg x diff }
  else if sub = 0x000E then
    at_check s 16 x <|
    -- reg.at(0xF) = (reg.at(x) >> 7U) & 1U
    let s1 := { s with reg := Function.update s.reg 0xF ((s.reg x >>> 7) &&& 1) }
    -- reg.at(x) <<= 1U
    at_check s1 16 x <|
    Ctl.next { s1 with reg := Function.update s1.reg x ((s1.reg x <<< 1) % 256) }
  else
    unknown_opcode s

/-- Statement `if (previous_bit and not screen.at(draw_y)[draw_x]) { reg.at(0xF) = 1; }`
that closes the inner loop body of `case 0xD000`. -/
def mark_erased (previous_bit : Bool) (draw_x draw_y : Nat) (s : Chip8) : Ctl :=
  -- `and` short-circuits: the screen is read only when previous_bit holds
  if previous_bit then
    at_check s HEIGHT draw_y <|
    if !(s.screen draw_y draw_x) then
      -- a pixel was erased
      Ctl.next { s with reg := Function.update s.reg 0xF 1 }
    else Ctl.next s
  else Ctl.next s

/-- Body of the inner loop of `case 0xD000` for one `row` and one `col`. -/
def draw_pixel (x y row col : Nat) (s : Chip8) : Ctl :=
  at_check s 16 x <|
  let draw_x := ((col + s.reg x) % WIDTH) % 65536
  at_check s 16 y <|
  let draw_y := ((row + s.reg y) % HEIGHT) % 65536
  at_check s 4096 (s.I + row) <|
  let bit : Bool := (s.memory (s.I + row) &&& (0x80 >>> col)) != 0
  at_check s HEIGHT draw_y <|
  let previous_bit : Bool := s.screen draw_y draw_x
  if bit then
    -- screen.at(draw_y).flip(draw_x)
    at_check s HEIGHT draw_y <| at_check s WIDTH draw_x <|
    let row_bits := Function.update (s.screen draw_y) draw_x (!(s.screen draw_y draw_x))
    mark_erased previous_bit draw_x draw_y
      { s with screen := Function.update s.screen draw_y row_bits }
  else mark_erased previous_bit draw_x draw_y s

/-- Body of `case 0xD000` (DRW). -/
def draw (s : Chip8) (x y n : Nat) : Ctl :=
  -- reg.at(0xF) = 0
  let s1 := { s with reg := Function.update s.reg 0xF 0 }
  (for_loop (fun row t => for_loop (fun col u => draw_pixel x y row col u) 8 0 t) n 0 s1).and_then
    -- draw_pending = true; PC += 2
    fun s2 => Ctl.next (advance { s2 with draw_pending := true } 2)

/-- Inner `switch (opcode & 0x00FF)` of `case 0xF000` (without the trailing `PC += 2`). -/
def misc (s : Chip8) (x : Nat) : Ctl :=
  let sub := s.opcode &&& 0x00FF
  if sub = 0x0007 then
    -- reg.at(x) = delay_timer
    at_check s 16 x <|
    Ctl.next { s with reg := Function.update s.reg x s.delay_timer }
  else if sub = 0x000A then
    let s1 := { s with wait_for_key := true }
    let scanned := for_loop (fun i t =>
      at_check t 16 i <|
      if t.key i then
        at_check t 16 x <|
        Ctl.next { t with reg := Function.update t.reg x (i % 256), wait_for_key := false }
      else Ctl.next t) 16 0 s1
    -- if (wait_for_key) { return; }
    scanned.and_then fun s2 => if s2.wait_for_key then Ctl.returned s2 else Ctl.next s2
  else if sub = 0x0015 then
    -- delay_timer = reg.at(x)
    at_check s 16 x <|
    Ctl.next { s with delay_timer := s.reg x }
  else if sub = 0x0018 then
    -- sound_timer = reg.at(x)
    at_check s 16 x <|
    Ctl.next { s with sound_timer := s.reg x }
  else if sub = 0x001E then
    at_check s 16 x <|
    let s1 := { s with reg := Function.update s.reg 0xF (if s.I + s.reg x > 0xFFF then 1 else 0) }
    -- I += reg.at(x)
    at_check s1 16 x <|
    Ctl.next { s1 with I := (s1.I + s1.reg x) % 65536 }
  else if sub = 0x0029 then
    -- I = 5 * reg.at(x)
    at_check s 16 x <|
    Ctl.next { s with I := (5 * s.reg x) % 65536 }
  else if sub = 0x0033 then
    -- memory.at(I) = reg.at(x) % 1000 / 100
    at_check s 16 x <| at_check s 4096 s.I <|
    let s1 := { s with memory := Function.update s.memory s.I ((s.reg x % 1000 / 100) % 256) }
    -- memory.at(I + 1) = reg.at(x) % 100 / 10
    at_check s1 16 x <| at_check s1 4096 (s1.I + 1) <|
    let tens := (s1.reg x % 100 / 10) % 256
    let s2 := { s1 with memory := Function.update s1.memory (s1.I + 1) tens }
    -- memory.at(I + 2) = reg.at(x) % 10
    at_check s2 16 x <| at_check s2 4096 (s2.I + 2) <|
    Ctl.next { s2 with memory := Function.update s2.memory (s2.I + 2) ((s2.reg x % 10) % 256) }
  else if sub = 0x0055 then
    -- for (auto i = 0; i <= x; ++i) memory.at(I + i) = reg.at(i)
    for_loop (fun i t =>
      at_check t 16 i <| at_check t 4096 (t.I + i) <|
      Ctl.next { t with memory := Function.update t.memory (t.I + i) (t.reg i) }) (x + 1) 0 s
  else if sub = 0x0065 then
    -- for (auto i = 0; i <= x; ++i) reg.at(i) = memory.at(I + i)
    for_loop (fun i t =>
      at_check t 4096 (t.I + i) <| at_check t 16 i <|
      Ctl.next { t with reg := Function.update t.reg i (t.memory (t.I + i)) }) (x + 1) 0 s
  else
    unknown_opcode s

/-- The outer `switch (opcode & 0xF000)` of `execute`, after the fetch; `rnd` is the value
returned by `rnd_dist(rng)`. -/
def dispatch (s : Chip8) (rnd : Nat) : Ctl :=
  let nnn := s.opcode &&& 0x0FFF
  let nn := s.opcode &&& 0x00FF
  let x := (s.opcode &&& 0x0F00) >>> 8
  let y := (s.opcode &&& 0x00F0) >>> 4
  let n := s.opcode &&& 0x000F
  let family := s.opcode &&& 0xF000
  if family = 0x0000 then
    if s.opcode &&& 0x00FF = 0x00E0 then
      -- CLS
      Ctl.next (advance (clear_screen s) 2)
    else if s.opcode &&& 0x00FF = 0x00EE then
      -- RET: --SP; PC = stack.at(SP)
      let s1 := { s with SP := (s.SP + 255) % 256 }
      at_check s1 16 s1.SP <|
      Ctl.next { s1 with PC := s1.stack s1.SP }
    else unknown_opcode s
  else if family = 0x1000 then
    Ctl.next { s with PC := nnn }
  else if family = 0x2000 then
    -- stack.at(SP) = PC + 2; ++SP; PC = nnn
    at_check s 16 s.SP <|
    let s1 := { s with stack := Function.update s.stack s.SP ((s.PC + 2) % 65536) }
    let s2 := { s1 with SP := (s1.SP + 1) % 256 }
    Ctl.next { s2 with PC := nnn }
  else if family = 0x3000 then
    at_check s 16 x <|
    if s.reg x = nn then Ctl.next (advance s 4) else Ctl.next (advance s 2)
  else if family = 0x4000 then
    at_check s 16 x <|
    if s.reg x ≠ nn then Ctl.next (advance s 4) else Ctl.next (advance s 2)
  else if family = 0x5000 then
    at_check s 16 x <| at_check s 16 y <|
    if s.reg x = s.reg y then Ctl.next (advance s 4) else Ctl.next (advance s 2)
  else if family = 0x6000 then
    at_check s 16 x <|
    Ctl.next (advance { s with reg := Function.update s.reg x (nn % 256) } 2)
  else if family = 0x7000 then
    at_check s 16 x <|
    Ctl.next (advance { s with reg := Function.update s.reg x ((s.reg x + nn) % 256) } 2)
  else if family = 0x8000 then
    (alu s x y).and_then fun s1 => Ctl.next (advance s1 2)
  else if family = 0x9000 then
    at_check s 16 x <| at_check s 16 y <|
    if s.reg x ≠ s.reg y then Ctl.next (advance s 4) else Ctl.next (advance s 2)
  else if family = 0xA000 then
    Ctl.next (advance { s with I := nnn } 2)
  else if family = 0xB000 then
    at_check s 16 0 <|
    Ctl.next { s with PC := (nnn + s.reg 0) % 65536 }
  else if family = 0xC000 then
    at_check s 16 x <|
    Ctl.next (advance { s with reg := Function.update s.reg x ((rnd &&& nn) % 256) } 2)
  else if family = 0xD000 then
    draw s x y n
  else if family = 0xE000 then
    if s.opcode &&& 0x00FF = 0x009E then
      at_check s 16 x <| at_check s 16 (s.reg x) <|
      let s1 := if s.key (s.reg x) then advance s 2 else s
      Ctl.next (advance s1 2)
    else if s.opcode &&& 0x00FF = 0x00A1 then
      at_check s 16 x <| at_check s 16 (s.reg x) <|
      let s1 := if !(s.key (s.reg x)) then advance s 2 else s
      Ctl.next (advance s1 2)
    else unknown_opcode s
  else if family = 0xF000 then
    (misc s x).and_then fun s1 => Ctl.next (advance s1 2)
  else
    unknown_opcode s

/-- Timer block at the end of `execute`, with the sampled clock as `current_time_ms`. -/
def update_timers (s : Chip8) (current_time_ms : Int) : Chip8 :=
  if current_time_ms - s.last_timer_update_ms ≥ 17 then
    let s1 := { s with last_timer_update_ms := current_time_ms }
    let s2 := if s1.delay_timer > 0 then { s1 with delay_timer := s1.delay_timer - 1 } else s1
    if s2.sound_timer > 0 then { s2 with sound_timer := s2.sound_timer - 1 } else s2
  else s

/-- What follows the outer switch of `execute`: after a fall-through the timer block runs;
a `return;` inside the switch skips it; an exception leaves the function at once. -/
def after_switch (r : Ctl) (current_time_ms : Int) : Outcome :=
  match r with
  | Ctl.next s => Outcome.ok (update_timers s current_time_ms)
  | Ctl.returned s => Outcome.ok s
  | Ctl.threw e s => Outcome.threw e s

/-- Member function `execute`: fetch, dispatch, then the timer block. -/
def execute (s : Chip8) (rnd : Nat) (current_time_ms : Int) : Outcome :=
  match fetch s with
  | Ctl.next s1 => after_switch (dispatch s1 rnd) current_time_ms
  | Ctl.returned s1 => Outcome.ok s1
  | Ctl.threw e s1 => Outcome.threw e s1

/-- The bytes `memory[PC]`, `memory[PC + 1]` hold the big-endian 16-bit word `w`, both
addresses being inside the 4096-byte memory. -/
def word_at (s : Chip8) (w : Nat) : Prop :=
  s.PC ≤ 4094 ∧ w < 65536 ∧ s.memory s.PC = w / 256 ∧ s.memory (s.PC + 1) = w % 256

instance (s : Chip8) (w : Nat) : Decidable (s.word_at w) := by
  unfold word_at
  infer_instance

end Chip8

/-- The object after the call, whether it returned or threw. -/
def Outcome.state : Outcome → Chip8
  | Outcome.ok s => s
  | Outcome.threw _ s => s

/-- The exception raised by the call, if any. -/
def Outcome.error : Outcome → Option Error
  | Outcome.ok _ => none
  | Outcome.threw e _ => some e

/-- The block ends by throwing the unknown-opcode error. -/
def Ctl.raises_unknown : Ctl → Prop
  | Ctl.threw (Error.unknown_opcode _) _ => True
  | _ => False

/-- The object built by the constructor `Chip8::Chip8()`: every member zero except
`PC = 0x200`. -/
def Chip8.zeroed : Chip8 :=
  { opcode := 0, memory := fun _ => 0, reg := fun _ => 0, I := 0, PC := 0x200,
    stack := fun _ => 0, SP := 0, screen := fun _ _ => false, delay_timer := 0,
    sound_timer := 0, wait_for_key := false, key := fun _ => false,
    draw_pending := false, last_timer_update_ms := 0 }

/-- Store the big-endian word `w` at `memory[a]`, `memory[a + 1]` (test set-up helper). -/
def Chip8.poke16 (s : Chip8) (a w : Nat) : Chip8 :=
  { s with memory := Function.update (Function.update s.memory a (w / 256)) (a + 1) (w % 256) }

/-- Set register `i` to `v` (test set-up helper). -/
def Chip8.set_reg (s : Chip8) (i v : Nat) : Chip8 :=
  { s with reg := Function.update s.reg i v }

/-- Instruction patterns listed by the specification as defined:
00E0, 00EE, 1NNN, 2NNN, 3XNN, 4XNN, 5XY0, 6XNN, 7XNN, 8XY0..8XY7, 8XYE, 9XY0, ANNN, BNNN,
CXNN, DXYN, EX9E, EXA1, FX07, FX0A, FX15, FX18, FX1E, FX29, FX33, FX55, FX65. -/
def defined_pattern (w : Nat) : Bool :=
  let f := w / 4096
  if f = 0 then w = 0x00E0 || w = 0x00EE
  else if f = 5 then w % 16 = 0
  else if f = 8 then w % 16 ≤ 7 || w % 16 = 0xE
  else if f = 9 then w % 16 = 0
  else if f = 0xE then w % 256 = 0x9E || w % 256 = 0xA1
  else if f = 0xF then
    w % 256 = 0x07 || w % 256 = 0x0A || w % 256 = 0x15 || w % 256 = 0x18 || w % 256 = 0x1E
      || w % 256 = 0x29 || w % 256 = 0x33 || w % 256 = 0x55 || w % 256 = 0x65
  else f < 16

/-- Instruction patterns the decoder of `execute` accepts.  They are those of
`defined_pattern` with the second digit of family 0 and the last digit of families 5 and
9 left free: 0XE0, 0XEE, 5XYN, 9XYN. -/
def accepted_pattern (w : Nat) : Bool :=
  let f := w / 4096
  if f = 0 then w % 256 = 0xE0 || w % 256 = 0xEE
  else if f = 8 then w % 16 ≤ 7 || w % 16 = 0xE
  else if f = 0xE then w % 256 = 0x9E || w % 256 = 0xA1
  else if f = 0xF then
    w % 256 = 0x07 || w % 256 = 0x0A || w % 256 = 0x15 || w % 256 = 0x18 || w % 256 = 0x1E
      || w % 256 = 0x29 || w % 256 = 0x33 || w % 256 = 0x55 || w % 256 = 0x65
  else f < 16

/-! ### Pixelwise description of the DRW loops

The two nested loops of `case 0xD000` visit the pairs `(row, col)` in the order of the
linear index `q = 8 * row + col`.  The functions below describe the framebuffer and the
erasure flag after the first `p` pairs; they are used to state loop invariants. -/

/-- Exclusive or of `f 0, ..., f (k - 1)`. -/
def xor_upto (f : Nat → Bool) : Nat → Bool
  | 0 => false
  | k + 1 => xor (xor_upto f k) (f k)

/-- Disjunction of `f 0, ..., f (k - 1)`. -/
def any_upto (f : Nat → Bool) : Nat → Bool
  | 0 => false
  | k + 1 => any_upto f k || f k

/-- Sprite bit read at step `q`: `memory.at(I + row) & (0x80 >> col)` as a `bool`. -/
def sprite_bit (mem : Nat → Nat) (I q : Nat) : Bool :=
  (mem (I + q / 8) &&& (0x80 >>> (q % 8))) != 0

/-- Column `draw_x` addressed at step `q`, for `reg[x] = vx`. -/
def target_x (vx q : Nat) : Nat := (q % 8 + vx) % 64

/-- Row `draw_y` addressed at step `q`, for `reg[y] = vy`. -/
def target_y (vy q : Nat) : Nat := (q / 8 + vy) % 32

/-- Step `q` flips the pixel in row `r`, column `c`. -/
def hit (mem : Nat → Nat) (I vx vy q r c : Nat) : Bool :=
  sprite_bit mem I q && (decide (r = target_y vy q) && decide (c = target_x vx q))

/-- The framebuffer after the first `p` steps, starting from `scr0`. -/
def screen_after (scr0 : Nat → Nat → Bool) (mem : Nat → Nat) (I vx vy p : Nat) :
    Nat → Nat → Bool :=
  fun r c => xor (scr0 r c) (xor_upto (fun q => hit mem I vx vy q r c) p)

/-- Step `q` turns a set pixel off. -/
def erased_at (scr0 : Nat → Nat → Bool) (mem : Nat → Nat) (I vx vy q : Nat) : Bool :=
  sprite_bit mem I q && screen_after scr0 mem I vx vy q (target_y vy q) (target_x vx q)

/-- The registers after the first `p` steps, starting from `reg0`: register 0xF is set to 1
as soon as one step has turned a set pixel off. -/
def reg_after (reg0 : Nat → Nat) (scr0 : Nat → Nat → Bool) (mem : Nat → Nat)
    (I vx vy p : Nat) : Nat → Nat :=
  if any_upto (erased_at scr0 mem I vx vy) p then Function.update reg0 0xF 1 else reg0

/-- The machine after the first `p` steps of the DRW loops started in state `s`, with
`x`, `y` the register indices of the instruction. -/
def Chip8.draw_state (s : Chip8) (x y p : Nat) : Chip8 :=
  { s with screen := screen_after s.screen s.memory s.I (s.reg x) (s.reg y) p,
           reg := reg_after s.reg s.screen s.memory s.I (s.reg x) (s.reg y) p }

/-- The machine at the end of `case 0xD000` started in state `s`: `reg[0xF] = 0`, all
`8 * n` loop steps, `draw_pending = true`, `PC += 2`. -/
def Chip8.draw_result (s : Chip8) (x y n : Nat) : Chip8 :=
  Chip8.advance { Chip8.draw_state (s.set_reg 0xF 0) x y (8 * n) with draw_pending := true } 2

/-- The machine after `reset` with the word 0xD015 (DRW V0, V1, 5) at 0x200: I = 0 points
at the glyph of digit 0 and V0 = V1 = 0. -/
def Chip8.glyph0_draw : Chip8 := (Chip8.reset Chip8.zeroed).poke16 0x200 0xD015

/-- Set the program counter (test set-up helper). -/
def Chip8.set_PC (s : Chip8) (pc : Nat) : Chip8 := { s with PC := pc }

/-- Successive calls of `execute`, as made by the main loop, one per element of `inputs`
(the random byte and the clock value of each call); an exception ends the run. -/
def Chip8.run (s : Chip8) : List (Nat × Int) → Outcome
  | [] => Outcome.ok s
  | (rnd, t) :: rest =>
    match Chip8.execute s rnd t with
    | Outcome.ok s1 => Chip8.run s1 rest
    | Outcome.threw e s1 => Outcome.threw e s1

/-- Press key `k` (test set-up helper, the effect of `key_down` for `k < 16`). -/
def Chip8.press (s : Chip8) (k : Nat) : Chip8 :=
  { s with key := Function.update s.key k true }

/-- Set both timers (test set-up helper). -/
def Chip8.set_timers (s : Chip8) (d snd : Nat) : Chip8 :=
  { s with delay_timer := d, sound_timer := snd }

/-- The object a block of statements leaves behind, whichever way the block is left. -/
def Ctl.state : Ctl → Chip8
  | Ctl.next s => s
  | Ctl.returned s => s
  | Ctl.threw _ s => s

/-- The block ends by throwing. -/
def Ctl.throws : Ctl → Prop
  | Ctl.threw _ _ => True
  | _ => False

/-- The last index below `i` whose key is pressed, if any: the value the key scan of FX0A
has stored after visiting the keys `0, ..., i - 1`. -/
def highest_below (key : Nat → Bool) : Nat → Option Nat
  | 0 => none
  | i + 1 => if key i then some i else highest_below key i

/-- The machine after the first `i` iterations of the key scan of FX0A started in state
`s` (which already has `wait_for_key = true`). -/
def Chip8.scan_state (s : Chip8) (x i : Nat) : Chip8 :=
  match highest_below s.key i with
  | none => s
  | some k => { s with reg := Function.update s.reg x k, wait_for_key := false }

/-- Set the index register (test set-up helper). -/
def Chip8.set_I (s : Chip8) (v : Nat) : Chip8 := { s with I := v }

/-- Set the stack pointer (test set-up helper). -/
def Chip8.set_SP (s : Chip8) (v : Nat) : Chip8 := { s with SP := v }

/-- Turn on the pixel in row `r`, column `c` (test set-up helper). -/
def Chip8.set_pixel (s : Chip8) (r c : Nat) : Chip8 :=
  { s with screen := Function.update s.screen r (Function.update (s.screen r) c true) }

/-- Store one byte at `memory[a]` (test set-up helper). -/
def Chip8.poke (s : Chip8) (a b : Nat) : Chip8 :=
  { s with memory := Function.update s.memory a b }

/-- The machine after the first `i` iterations of the FX55 loop started in state `s`:
`memory[I + j] = reg[j]` for `j < i`. -/
def Chip8.store_state (s : Chip8) (i : Nat) : Chip8 :=
  { s with memory := fun a => if s.I ≤ a ∧ a < s.I + i then s.reg (a - s.I) else s.memory a }

/-- The machine after the first `i` iterations of the FX65 loop started in state `s`:
`reg[j] = memory[I + j]` for `j < i`. -/
def Chip8.load_state (s : Chip8) (i : Nat) : Chip8 :=
  { s with reg := fun j => if j < i then s.memory (s.I + j) else s.reg j }

/-- State `u` has the framebuffer and the dirty flag of state `s0`. -/
def Chip8.same_display (s0 u : Chip8) : Prop :=
  u.screen = s0.screen ∧ u.draw_pending = s0.draw_pending

/-- State `u` has the dirty flag of state `s0`. -/
def Chip8.same_pending (s0 u : Chip8) : Prop :=
  u.draw_pending = s0.draw_pending

/-- Dirty-flag discipline of a block `r` run from state `s0`: the flag ends up set or
unchanged, and unless the block throws, the flag ends up set or the framebuffer is
unchanged. -/
def Chip8.display_ok (s0 : Chip8) (r : Ctl) : Prop :=
  (r.state.draw_pending = true ∨ r.state.draw_pending = s0.draw_pending) ∧
  (¬ r.throws → r.state.draw_pending = true ∨ r.state.screen = s0.screen)

/-! ## Decoding lemmas -/

theorem fetch_word (w : Nat) (hw : w < 65536) :
    ((w / 256) <<< 8) % 65536 ||| (w % 256) = w := by
  have h1 : (w / 256) <<< 8 = 2 ^ 8 * (w / 256) := by rw [Nat.shiftLeft_eq]; ring
  have h2 : 2 ^ 8 * (w / 256) < 65536 := by omega
  rw [h1, Nat.mod_eq_of_lt h2, ← Nat.mul_add_lt_is_or (by omega)]
  omega

theorem and_shiftRight (a b i : Nat) : (a &&& b) >>> i = (a >>> i) &&& (b >>> i) := by
  apply Nat.eq_of_testBit_eq
  intro j
  simp

theorem and_000F (w : Nat) : w &&& 0x000F = w % 16 := Nat.and_pow_two_sub_one_eq_mod w 4

theorem and_00FF (w : Nat) : w &&& 0x00FF = w % 256 := Nat.and_pow_two_sub_one_eq_mod w 8

theorem and_0FFF (w : Nat) : w &&& 0x0FFF = w % 4096 := Nat.and_pow_two_sub_one_eq_mod w 12

theorem and_0F00 (w : Nat) : (w &&& 0x0F00) >>> 8 = w / 256 % 16 := by
  rw [and_shiftRight, Nat.shiftRight_eq_div_pow]
  exact Nat.and_pow_two_sub_one_eq_mod (w / 2 ^ 8) 4

theorem and_00F0 (w : Nat) : (w &&& 0x00F0) >>> 4 = w / 16 % 16 := by
  rw [and_shiftRight, Nat.shiftRight_eq_div_pow]
  exact Nat.and_pow_two_sub_one_eq_mod (w / 2 ^ 4) 4

theorem and_F000 (w : Nat) : w &&& 0xF000 = 4096 * (w / 4096 % 16) := by
  have hlow : (w &&& 0xF000) % 4096 = 0 := by
    have h := Nat.and_pow_two_sub_one_eq_mod (w &&& 0xF000) 12
    rw [Nat.and_assoc] at h
    have h0 : (0xF000 &&& (2 ^ 12 - 1) : Nat) = 0 := by decide
    rw [h0, Nat.and_zero] at h
    exact h.symm
  have hhigh : (w &&& 0xF000) / 4096 = w / 4096 % 16 := by
    have h := and_shiftRight w 0xF000 12
    rw [Nat.shiftRight_eq_div_pow, Nat.shiftRight_eq_div_pow] at h
    rw [h]
    exact Nat.and_pow_two_sub_one_eq_mod (w / 2 ^ 12) 4
  omega

/-! ## Fetch -/

theorem fetch_eq (s : Chip8) (w : Nat) (h : s.word_at w) :
    Chip8.fetch s = Ctl.next { s with opcode := w } := by
  obtain ⟨hpc, hw, h0, h1⟩ := h
  have hlt : s.PC < 4096 := by omega
  have hlt1 : s.PC + 1 < 4096 := by omega
  simp [Chip8.fetch, Chip8.at_check, hlt, hlt1, h0, h1, fetch_word w hw]

theorem execute_eq (s : Chip8) (w rnd : Nat) (t : Int) (h : s.word_at w) :
    Chip8.execute s rnd t = Chip8.after_switch (Chip8.dispatch { s with opcode := w } rnd) t := by
  simp [Chip8.execute, fetch_eq s w h]

/-! ## No handler other than the `default` branches raises the unknown-opcode error -/

theorem next_nu (s : Chip8) : ¬ (Ctl.next s).raises_unknown := by
  simp [Ctl.raises_unknown]

theorem at_check_nu (s : Chip8) (n i : Nat) (k : Ctl) (h : ¬ k.raises_unknown) :
    ¬ (Chip8.at_check s n i k).raises_unknown := by
  unfold Chip8.at_check
  split
  · exact h
  · simp [Ctl.raises_unknown]

theorem and_then_nu (r : Ctl) (f : Chip8 → Ctl) (hr : ¬ r.raises_unknown)
    (hf : ∀ s, ¬ (f s).raises_unknown) : ¬ (r.and_then f).raises_unknown := by
  cases r with
  | next s => exact hf s
  | returned s => simp [Ctl.and_then, Ctl.raises_unknown]
  | threw e s => simpa [Ctl.and_then] using hr

theorem for_loop_nu (body : Nat → Chip8 → Ctl) (hb : ∀ i s, ¬ (body i s).raises_unknown)
    (n i : Nat) (s : Chip8) : ¬ (Chip8.for_loop body n i s).raises_unknown := by
  induction n generalizing i s with
  | zero => simp [Chip8.for_loop, Ctl.raises_unknown]
  | succ k ih =>
    unfold Chip8.for_loop
    exact and_then_nu _ _ (hb i s) (fun s1 => ih (i + 1) s1)

theorem mark_erased_nu (p : Bool) (dx dy : Nat) (s : Chip8) :
    ¬ (Chip8.mark_erased p dx dy s).raises_unknown := by
  unfold Chip8.mark_erased
  split
  · refine at_check_nu _ _ _ _ ?_
    split <;> exact next_nu _
  · exact next_nu _

theorem draw_pixel_nu (x y row col : Nat) (s : Chip8) :
    ¬ (Chip8.draw_pixel x y row col s).raises_unknown := by
  unfold Chip8.draw_pixel
  refine at_check_nu _ _ _ _ (at_check_nu _ _ _ _ (at_check_nu _ _ _ _ (at_check_nu _ _ _ _ ?_)))
  split
  · exact at_check_nu _ _ _ _ (at_check_nu _ _ _ _ (mark_erased_nu _ _ _ _))
  · exact mark_erased_nu _ _ _ _

theorem draw_nu (s : Chip8) (x y n : Nat) : ¬ (Chip8.draw s x y n).raises_unknown := by
  unfold Chip8.draw
  refine and_then_nu _ _ (for_loop_nu _ (fun i t => ?_) _ _ _) (fun s2 => next_nu _)
  exact for_loop_nu _ (fun c u => draw_pixel_nu x y i c u) 8 0 t

theorem alu_unknown (s : Chip8) (x y : Nat) (h : ¬ (s.opcode % 16 ≤ 7 ∨ s.opcode % 16 = 14)) :
    Chip8.alu s x y = Ctl.threw (Error.unknown_opcode s.opcode) s := by
  have h0 : s.opcode % 16 ≠ 0 := by omega
  have h1 : s.opcode % 16 ≠ 1 := by omega
  have h2 : s.opcode % 16 ≠ 2 := by omega
  have h3 : s.opcode % 16 ≠ 3 := by omega
  have h4 : s.opcode % 16 ≠ 4 := by omega
  have h5 : s.opcode % 16 ≠ 5 := by omega
  have h6 : s.opcode % 16 ≠ 6 := by omega
  have h7 : s.opcode % 16 ≠ 7 := by omega
  have h8 : s.opcode % 16 ≠ 14 := by omega
  unfold Chip8.alu
  rw [and_000F]
  simp only [if_neg h0, if_neg h1, if_neg h2, if_neg h3, if_neg h4, if_neg h5, if_neg h6,
    if_neg h7, if_neg h8]
  rfl

theorem alu_nu (s : Chip8) (x y : Nat) (h : s.opcode % 16 ≤ 7 ∨ s.opcode % 16 = 14) :
    ¬ (Chip8.alu s x y).raises_unknown := by
  have hc : s.opcode % 16 = 0 ∨ s.opcode % 16 = 1 ∨ s.opcode % 16 = 2 ∨ s.opcode % 16 = 3 ∨
      s.opcode % 16 = 4 ∨ s.opcode % 16 = 5 ∨ s.opcode % 16 = 6 ∨ s.opcode % 16 = 7 ∨
      s.opcode % 16 = 14 := by omega
  unfold Chip8.alu
  rw [and_000F]
  rcases hc with hc | hc | hc | hc | hc | hc | hc | hc | hc <;>
  · simp only [hc]
    norm_num
    repeat (first | exact next_nu _ | apply at_check_nu)

theorem misc_unknown (s : Chip8) (x : Nat)
    (h : s.opcode % 256 ≠ 0x07 ∧ s.opcode % 256 ≠ 0x0A ∧ s.opcode % 256 ≠ 0x15 ∧
      s.opcode % 256 ≠ 0x18 ∧ s.opcode % 256 ≠ 0x1E ∧ s.opcode % 256 ≠ 0x29 ∧
      s.opcode % 256 ≠ 0x33 ∧ s.opcode % 256 ≠ 0x55 ∧ s.opcode % 256 ≠ 0x65) :
    Chip8.misc s x = Ctl.threw (Error.unknown_opcode s.opcode) s := by
  obtain ⟨h0, h1, h2, h3, h4, h5, h6, h7, h8⟩ := h
  unfold Chip8.misc
  rw [and_00FF]
  simp only [if_neg h0, if_neg h1, if_neg h2, if_neg h3, if_neg h4, if_neg h5, if_neg h6,
    if_neg h7, if_neg h8]
  rfl

theorem misc_nu (s : Chip8) (x : Nat)
    (hc : s.opcode % 256 = 0x07 ∨ s.opcode % 256 = 0x0A ∨ s.opcode % 256 = 0x15 ∨
      s.opcode % 256 = 0x18 ∨ s.opcode % 256 = 0x1E ∨ s.opcode % 256 = 0x29 ∨
      s.opcode % 256 = 0x33 ∨ s.opcode % 256 = 0x55 ∨ s.opcode % 256 = 0x65) :
    ¬ (Chip8.misc s x).raises_unknown := by
  unfold Chip8.misc
  rw [and_00FF]
  rcases hc with hc | hc | hc | hc | hc | hc | hc | hc | hc <;>
  · simp only [hc]
    norm_num
    repeat (first
      | exact next_nu _
      | apply at_check_nu
      | (apply and_then_nu; rotate_left; (intro s2; split <;> simp [Ctl.raises_unknown]))
      | (apply for_loop_nu; intro i t)
      | split)

theorem family_eq (w : Nat) (hw : w < 65536) : w &&& 0xF000 = 4096 * (w / 4096) := by
  rw [and_F000, Nat.mod_eq_of_lt (by omega)]

theorem dispatch_unknown (s : Chip8) (rnd : Nat) (hw : s.opcode < 65536)
    (h : accepted_pattern s.opcode = false) :
    Chip8.dispatch s rnd = Ctl.threw (Error.unknown_opcode s.opcode) s := by
  have hfam := family_eq s.opcode hw
  have hf : s.opcode / 4096 < 16 := by omega
  unfold accepted_pattern at h
  generalize s.opcode / 4096 = f at h hfam hf
  interval_cases f
  all_goals try (simp at h; done)
  · -- family 0
    simp only [↓reduceIte, Bool.or_eq_false_iff, decide_eq_false_iff_not] at h
    simp [Chip8.dispatch, hfam, and_00FF, h.1, h.2, Chip8.unknown_opcode]
  · -- family 8
    have hn : ¬ (s.opcode % 16 ≤ 7 ∨ s.opcode % 16 = 14) := by
      simp at h
      omega
    simp [Chip8.dispatch, hfam, alu_unknown s _ _ hn, Ctl.and_then]
  · -- family E
    simp at h
    simp [Chip8.dispatch, hfam, and_00FF, h.1, h.2, Chip8.unknown_opcode]
  · -- family F
    have hn : s.opcode % 256 ≠ 0x07 ∧ s.opcode % 256 ≠ 0x0A ∧ s.opcode % 256 ≠ 0x15 ∧
        s.opcode % 256 ≠ 0x18 ∧ s.opcode % 256 ≠ 0x1E ∧ s.opcode % 256 ≠ 0x29 ∧
        s.opcode % 256 ≠ 0x33 ∧ s.opcode % 256 ≠ 0x55 ∧ s.opcode % 256 ≠ 0x65 := by
      simp at h
      omega
    simp [Chip8.dispatch, hfam, misc_unknown s _ hn, Ctl.and_then]

theorem dispatch_nu (s : Chip8) (rnd : Nat) (hw : s.opcode < 65536)
    (h : accepted_pattern s.opcode = true) :
    ¬ (Chip8.dispatch s rnd).raises_unknown := by
  have hfam := family_eq s.opcode hw
  have hf : s.opcode / 4096 < 16 := by omega
  unfold accepted_pattern at h
  generalize s.opcode / 4096 = f at h hfam hf
  unfold Chip8.dispatch
  simp only [hfam, and_00FF]
  interval_cases f
  · -- family 0
    simp at h
    rcases h with h | h <;>
    · simp only [h]
      norm_num
      repeat (first | exact next_nu _ | apply at_check_nu)
  · norm_num; exact next_nu _
  · norm_num; repeat (first | exact next_nu _ | apply at_check_nu)
  · norm_num; repeat (first | exact next_nu _ | apply at_check_nu | split)
  · norm_num; repeat (first | exact next_nu _ | apply at_check_nu | split)
  · norm_num; repeat (first | exact next_nu _ | apply at_check_nu | split)
  · norm_num; repeat (first | exact next_nu _ | apply at_check_nu)
  · norm_num; repeat (first | exact next_nu _ | apply at_check_nu)
  · -- family 8
    have hn : s.opcode % 16 ≤ 7 ∨ s.opcode % 16 = 14 := by
      simp at h
      omega
    norm_num
    exact and_then_nu _ _ (alu_nu s _ _ hn) (fun s1 => next_nu _)
  · norm_num; repeat (first | exact next_nu _ | apply at_check_nu | split)
  · norm_num; exact next_nu _
  · norm_num; repeat (first | exact next_nu _ | apply at_check_nu)
  · norm_num; repeat (first | exact next_nu _ | apply at_check_nu)
  · norm_num; exact draw_nu _ _ _ _
  · -- family E
    simp at h
    rcases h with h | h <;>
    · simp only [h]
      norm_num
      repeat (first | exact next_nu _ | apply at_check_nu)
  · -- family F
    have hn : s.opcode % 256 = 0x07 ∨ s.opcode % 256 = 0x0A ∨ s.opcode % 256 = 0x15 ∨
        s.opcode % 256 = 0x18 ∨ s.opcode % 256 = 0x1E ∨ s.opcode % 256 = 0x29 ∨
        s.opcode % 256 = 0x33 ∨ s.opcode % 256 = 0x55 ∨ s.opcode % 256 = 0x65 := by
      simp at h
      omega
    norm_num
    exact and_then_nu _ _ (misc_nu s _ hn) (fun s1 => next_nu _)

/-! ## The timer block changes only the two timers and the time stamp -/

theorem update_timers_frame (s : Chip8) (t : Int) :
    (Chip8.update_timers s t).opcode = s.opcode ∧
    (Chip8.update_timers s t).memory = s.memory ∧
    (Chip8.update_timers s t).reg = s.reg ∧
    (Chip8.update_timers s t).I = s.I ∧
    (Chip8.update_timers s t).PC = s.PC ∧
    (Chip8.update_timers s t).stack = s.stack ∧
    (Chip8.update_timers s t).SP = s.SP ∧
    (Chip8.update_timers s t).screen = s.screen ∧
    (Chip8.update_timers s t).wait_for_key = s.wait_for_key ∧
    (Chip8.update_timers s t).key = s.key ∧
    (Chip8.update_timers s t).draw_pending = s.draw_pending := by
  by_cases h1 : t - s.last_timer_update_ms ≥ 17 <;> by_cases h2 : s.delay_timer > 0 <;>
    by_cases h3 : s.sound_timer > 0 <;> simp [Chip8.update_timers, h1, h2, h3]

@[simp] theorem update_timers_memory (s : Chip8) (t : Int) :
    (Chip8.update_timers s t).memory = s.memory := (update_timers_frame s t).2.1

@[simp] theorem update_timers_reg (s : Chip8) (t : Int) :
    (Chip8.update_timers s t).reg = s.reg := (update_timers_frame s t).2.2.1

@[simp] theorem update_timers_I (s : Chip8) (t : Int) :
    (Chip8.update_timers s t).I = s.I := (update_timers_frame s t).2.2.2.1

@[simp] theorem update_timers_PC (s : Chip8) (t : Int) :
    (Chip8.update_timers s t).PC = s.PC := (update_timers_frame s t).2.2.2.2.1

@[simp] theorem update_timers_stack (s : Chip8) (t : Int) :
    (Chip8.update_timers s t).stack = s.stack := (update_timers_frame s t).2.2.2.2.2.1

@[simp] theorem update_timers_SP (s : Chip8) (t : Int) :
    (Chip8.update_timers s t).SP = s.SP := (update_timers_frame s t).2.2.2.2.2.2.1

@[simp] theorem update_timers_screen (s : Chip8) (t : Int) :
    (Chip8.update_timers s t).screen = s.screen := (update_timers_frame s t).2.2.2.2.2.2.2.1

@[simp] theorem update_timers_key (s : Chip8) (t : Int) :
    (Chip8.update_timers s t).key = s.key := (update_timers_frame s t).2.2.2.2.2.2.2.2.2.1

@[simp] theorem update_timers_draw_pending (s : Chip8) (t : Int) :
    (Chip8.update_timers s t).draw_pending = s.draw_pending :=
  (update_timers_frame s t).2.2.2.2.2.2.2.2.2.2

/-! ## Decoding an instruction word given by its four hexadecimal digits -/

theorem decode_fields (a x y n : Nat) (ha : a < 16) (hx : x < 16) (hy : y < 16) (hn : n < 16) :
    4096 * a + 256 * x + 16 * y + n < 65536 ∧
    (4096 * a + 256 * x + 16 * y + n) &&& 0xF000 = 4096 * a ∧
    ((4096 * a + 256 * x + 16 * y + n) &&& 0x0F00) >>> 8 = x ∧
    ((4096 * a + 256 * x + 16 * y + n) &&& 0x00F0) >>> 4 = y ∧
    (4096 * a + 256 * x + 16 * y + n) &&& 0x000F = n ∧
    (4096 * a + 256 * x + 16 * y + n) &&& 0x00FF = 16 * y + n ∧
    (4096 * a + 256 * x + 16 * y + n) &&& 0x0FFF = 256 * x + 16 * y + n := by
  rw [and_F000, and_0F00, and_00F0, and_000F, and_00FF, and_0FFF]
  omega

/-- Execution of a word of family 8: the register-register ALU switch, then `PC += 2`,
then the timer block. -/
theorem execute_alu (s : Chip8) (x y n rnd : Nat) (t : Int) (hx : x < 16) (hy : y < 16)
    (hn : n < 16) (h : s.word_at (0x8000 + 0x100 * x + 0x10 * y + n)) :
    Chip8.execute s rnd t =
      Chip8.after_switch
        ((Chip8.alu { s with opcode := 0x8000 + 0x100 * x + 0x10 * y + n } x y).and_then
          fun s1 => Ctl.next (Chip8.advance s1 2)) t := by
  obtain ⟨-, hf, hdx, hdy, -, -, -⟩ := decode_fields 8 x y n (by omega) hx hy hn
  rw [execute_eq s _ rnd t h]
  simp only [Nat.reduceMul] at hf hdx hdy
  simp [Chip8.dispatch, hf, hdx, hdy]

/-! ## C1: unknown opcodes -/

theorem defined_imp_accepted (w : Nat) (h : defined_pattern w = true) :
    accepted_pattern w = true := by
  unfold defined_pattern at h
  unfold accepted_pattern
  by_cases h0 : w / 4096 = 0
  · simp only [h0, ↓reduceIte, Bool.or_eq_true, decide_eq_true_eq] at h ⊢
    omega
  · by_cases h5 : w / 4096 = 5
    · simp [h5]
    · by_cases h9 : w / 4096 = 9
      · simp [h9]
      · simpa [h0, h5, h9] using h

/-- C1 as stated fails: the word 0x01E0 is none of the listed patterns (it is not 00E0),
yet `execute` runs it as CLS and returns normally with the screen cleared and PC
advanced; likewise 0x5121 (not of the form 5XY0) runs as a skip instruction. -/
theorem c1_counterexample :
    (Chip8.zeroed.poke16 0x200 0x01E0).word_at 0x01E0 ∧ defined_pattern 0x01E0 = false ∧
    (Chip8.execute (Chip8.zeroed.poke16 0x200 0x01E0) 0 0).error = none ∧
    (Chip8.execute (Chip8.zeroed.poke16 0x200 0x01E0) 0 0).state.PC = 0x202 ∧
    (Chip8.execute (Chip8.zeroed.poke16 0x200 0x01E0) 0 0).state.draw_pending = true ∧
    (Chip8.zeroed.poke16 0x200 0x5121).word_at 0x5121 ∧ defined_pattern 0x5121 = false ∧
    (Chip8.execute (Chip8.zeroed.poke16 0x200 0x5121) 0 0).error = none ∧
    (Chip8.execute (Chip8.zeroed.poke16 0x200 0x5121) 0 0).state.PC = 0x204 := by
  refine ⟨by decide, by decide, by decide, by decide, by decide, by decide, by decide,
    by decide, by decide⟩

/-- C1 (amended): for every state whose word `w` at PC is rejected by the decoder, that
is, matches none of 0XE0, 0XEE, 1NNN, 2NNN, 3XNN, 4XNN, 5XYN, 6XNN, 7XNN, 8XY0..8XY7,
8XYE, 9XYN, ANNN, BNNN, CXNN, DXYN, EX9E, EXA1, FX07, FX0A, FX15, FX18, FX1E, FX29, FX33,
FX55, FX65, `execute` throws the unknown-opcode error carrying exactly `w` and leaves PC,
the registers, I, memory, the stack, SP and the framebuffer unchanged; for every word that
matches one of these patterns, in particular every pattern the specification lists,
`execute` does not throw the unknown-opcode error. -/
theorem c1_unknown_opcode (s : Chip8) (w rnd : Nat) (t : Int) (h : s.word_at w) :
    (accepted_pattern w = false →
      ∃ s', Chip8.execute s rnd t = Outcome.threw (Error.unknown_opcode w) s' ∧
        s'.PC = s.PC ∧ s'.reg = s.reg ∧ s'.I = s.I ∧ s'.memory = s.memory ∧
        s'.stack = s.stack ∧ s'.SP = s.SP ∧ s'.screen = s.screen) ∧
    (accepted_pattern w = true →
      ∀ v, (Chip8.execute s rnd t).error ≠ some (Error.unknown_opcode v)) ∧
    (defined_pattern w = true → accepted_pattern w = true) := by
  have hw : w < 65536 := h.2.1
  rw [execute_eq s w rnd t h]
  refine ⟨fun ha => ?_, fun ha v => ?_, defined_imp_accepted w⟩
  · refine ⟨{ s with opcode := w }, ?_, rfl, rfl, rfl, rfl, rfl, rfl, rfl⟩
    rw [dispatch_unknown { s with opcode := w } rnd hw ha]
    rfl
  · have hnu := dispatch_nu { s with opcode := w } rnd hw ha
    revert hnu
    cases Chip8.dispatch { s with opcode := w } rnd with
    | next s1 => simp [Chip8.after_switch, Outcome.error]
    | returned s1 => simp [Chip8.after_switch, Outcome.error]
    | threw e s1 =>
      cases e with
      | unknown_opcode u => simp [Ctl.raises_unknown]
      | out_of_range => simp [Chip8.after_switch, Outcome.error]

/-- C1 witness: the word 0x8008 (no 8XY8 instruction exists) at PC = 0x200. -/
theorem c1_unknown_opcode_witness :
    (Chip8.zeroed.poke16 0x200 0x8008).word_at 0x8008 ∧ accepted_pattern 0x8008 = false ∧
    ∃ s', Chip8.execute (Chip8.zeroed.poke16 0x200 0x8008) 0 0 =
        Outcome.threw (Error.unknown_opcode 0x8008) s' ∧ s'.PC = 0x200 :=
  have h : (Chip8.zeroed.poke16 0x200 0x8008).word_at 0x8008 := by decide
  ⟨h, by decide,
    match (c1_unknown_opcode (Chip8.zeroed.poke16 0x200 0x8008) 0x8008 0 0 h).1 (by decide) with
    | ⟨s', he, hpc, _⟩ => ⟨s', he, hpc⟩⟩

/-! ## C2, C3: ADD, SUB, SUBN -/

/-- ADD Vx, Vy with neither operand being the flag register: flag, sum and PC are as
specified. -/
theorem add_spec (s : Chip8) (x y rnd : Nat) (t : Int) (hx : x < 15) (hy : y < 15)
    (h : s.word_at (0x8004 + 0x100 * x + 0x10 * y)) :
    (Chip8.execute s rnd t).error = none ∧
    (Chip8.execute s rnd t).state.reg 0xF = (if s.reg x + s.reg y > 255 then 1 else 0) ∧
    (Chip8.execute s rnd t).state.reg x = (s.reg x + s.reg y) % 256 ∧
    (Chip8.execute s rnd t).state.PC = s.PC + 2 := by
  have hpc : s.PC ≤ 4094 := h.1
  have hw : 0x8004 + 0x100 * x + 0x10 * y = 0x8000 + 0x100 * x + 0x10 * y + 4 := by omega
  rw [hw] at h
  have hx16 : x < 16 := by omega
  have hy16 : y < 16 := by omega
  have hxF : x ≠ 15 := by omega
  have hyF : y ≠ 15 := by omega
  have hn : (0x8000 + 0x100 * x + 0x10 * y + 4) % 16 = 4 := by omega
  rw [execute_alu s x y 4 rnd t hx16 hy16 (by omega) h]
  simp [Chip8.alu, and_000F, hn, Chip8.at_check, hx16, hy16, Ctl.and_then, Chip8.after_switch,
    Outcome.error, Outcome.state, Chip8.advance, Function.update, hxF, hyF, Ne.symm hxF]
  omega

/-- C2, evaluation at the failing input: ADD V0, VF (word 0x80F4) with V0 = 200 and
VF = 100.  The flag is stored in VF before VF is read as the second operand, so V0
becomes 200 + 1 = 201 instead of (200 + 100) mod 256 = 44. -/
theorem c2_add_flag_operand :
    (((Chip8.zeroed.poke16 0x200 0x80F4).set_reg 0 200).set_reg 0xF 100).word_at
      (0x8004 + 0x100 * 0 + 0x10 * 0xF) ∧
    (Chip8.execute (((Chip8.zeroed.poke16 0x200 0x80F4).set_reg 0 200).set_reg 0xF 100)
      0 0).error = none ∧
    (Chip8.execute (((Chip8.zeroed.poke16 0x200 0x80F4).set_reg 0 200).set_reg 0xF 100)
      0 0).state.reg 0xF = 1 ∧
    (Chip8.execute (((Chip8.zeroed.poke16 0x200 0x80F4).set_reg 0 200).set_reg 0xF 100)
      0 0).state.reg 0 = 201 ∧
    (200 + 100) % 256 = 44 := by
  refine ⟨by decide, by decide, by decide, by decide, by decide⟩

/-- SUB Vx, Vy and SUBN Vx, Vy with neither operand being the flag register: flag,
difference and PC are as specified. -/
theorem sub_spec (s : Chip8) (x y rnd : Nat) (t : Int) (hx : x < 15) (hy : y < 15) :
    (s.word_at (0x8005 + 0x100 * x + 0x10 * y) →
      (Chip8.execute s rnd t).error = none ∧
      (Chip8.execute s rnd t).state.reg 0xF = (if s.reg x > s.reg y then 1 else 0) ∧
      ((Chip8.execute s rnd t).state.reg x : Int) = ((s.reg x : Int) - (s.reg y : Int)) % 256 ∧
      (Chip8.execute s rnd t).state.PC = s.PC + 2) ∧
    (s.word_at (0x8007 + 0x100 * x + 0x10 * y) →
      (Chip8.execute s rnd t).error = none ∧
      (Chip8.execute s rnd t).state.reg 0xF = (if s.reg y > s.reg x then 1 else 0) ∧
      ((Chip8.execute s rnd t).state.reg x : Int) = ((s.reg y : Int) - (s.reg x : Int)) % 256 ∧
      (Chip8.execute s rnd t).state.PC = s.PC + 2) := by
  have hx16 : x < 16 := by omega
  have hy16 : y < 16 := by omega
  have hxF : x ≠ 15 := by omega
  have hyF : y ≠ 15 := by omega
  constructor
  · intro h
    have hpc : s.PC ≤ 4094 := h.1
    have hw : 0x8005 + 0x100 * x + 0x10 * y = 0x8000 + 0x100 * x + 0x10 * y + 5 := by omega
    rw [hw] at h
    have hn : (0x8000 + 0x100 * x + 0x10 * y + 5) % 16 = 5 := by omega
    rw [execute_alu s x y 5 rnd t hx16 hy16 (by omega) h]
    simp [Chip8.alu, and_000F, hn, Chip8.at_check, hx16, hy16, Ctl.and_then,
      Chip8.after_switch, Outcome.error, Outcome.state, Chip8.advance, Function.update, hxF,
      hyF, Ne.symm hxF]
    omega
  · intro h
    have hpc : s.PC ≤ 4094 := h.1
    have hw : 0x8007 + 0x100 * x + 0x10 * y = 0x8000 + 0x100 * x + 0x10 * y + 7 := by omega
    rw [hw] at h
    have hn : (0x8000 + 0x100 * x + 0x10 * y + 7) % 16 = 7 := by omega
    rw [execute_alu s x y 7 rnd t hx16 hy16 (by omega) h]
    simp [Chip8.alu, and_000F, hn, Chip8.at_check, hx16, hy16, Ctl.and_then,
      Chip8.after_switch, Outcome.error, Outcome.state, Chip8.advance, Function.update, hxF,
      hyF, Ne.symm hxF]
    omega

/-- C3, evaluation at the failing inputs.  SUB V0, VF (word 0x80F5) with V0 = 10 and
VF = 3: the flag 1 is stored in VF first, so V0 becomes 10 - 1 = 9 instead of 10 - 3 = 7.
SUBN V0, VF (word 0x80F7) with V0 = 3 and VF = 10: V0 becomes (1 - 3) mod 256 = 254
instead of 10 - 3 = 7. -/
theorem c3_sub_flag_operand :
    (((Chip8.zeroed.poke16 0x200 0x80F5).set_reg 0 10).set_reg 0xF 3).word_at
      (0x8005 + 0x100 * 0 + 0x10 * 0xF) ∧
    (Chip8.execute (((Chip8.zeroed.poke16 0x200 0x80F5).set_reg 0 10).set_reg 0xF 3)
      0 0).error = none ∧
    (Chip8.execute (((Chip8.zeroed.poke16 0x200 0x80F5).set_reg 0 10).set_reg 0xF 3)
      0 0).state.reg 0xF = 1 ∧
    (Chip8.execute (((Chip8.zeroed.poke16 0x200 0x80F5).set_reg 0 10).set_reg 0xF 3)
      0 0).state.reg 0 = 9 ∧
    (((Chip8.zeroed.poke16 0x200 0x80F7).set_reg 0 3).set_reg 0xF 10).word_at
      (0x8007 + 0x100 * 0 + 0x10 * 0xF) ∧
    (Chip8.execute (((Chip8.zeroed.poke16 0x200 0x80F7).set_reg 0 3).set_reg 0xF 10)
      0 0).error = none ∧
    (Chip8.execute (((Chip8.zeroed.poke16 0x200 0x80F7).set_reg 0 3).set_reg 0xF 10)
      0 0).state.reg 0xF = 1 ∧
    (Chip8.execute (((Chip8.zeroed.poke16 0x200 0x80F7).set_reg 0 3).set_reg 0xF 10)
      0 0).state.reg 0 = 254 ∧
    ((10 : Int) - 3) % 256 = 7 := by
  refine ⟨by decide, by decide, by decide, by decide, by decide, by decide, by decide,
    by decide, by decide⟩

/-! ## C4: shifts -/

theorem shr_spec (s : Chip8) (x y rnd : Nat) (t : Int) (hx : x < 15) (hy : y < 16)
    (h : s.word_at (0x8006 + 0x100 * x + 0x10 * y)) :
    (Chip8.execute s rnd t).error = none ∧
    (Chip8.execute s rnd t).state.reg 0xF = s.reg x % 2 ∧
    (Chip8.execute s rnd t).state.reg x = s.reg x / 2 ∧
    (∀ i, i ≠ x → i ≠ 0xF → (Chip8.execute s rnd t).state.reg i = s.reg i) ∧
    (Chip8.execute s rnd t).state.PC = s.PC + 2 := by
  have hpc : s.PC ≤ 4094 := h.1
  have hw : 0x8006 + 0x100 * x + 0x10 * y = 0x8000 + 0x100 * x + 0x10 * y + 6 := by omega
  rw [hw] at h
  have hx16 : x < 16 := by omega
  have hxF : x ≠ 15 := by omega
  have hn : (0x8000 + 0x100 * x + 0x10 * y + 6) % 16 = 6 := by omega
  rw [execute_alu s x y 6 rnd t hx16 hy (by omega) h]
  simp [Chip8.alu, and_000F, hn, Chip8.at_check, hx16, Ctl.and_then, Chip8.after_switch,
    Outcome.error, Outcome.state, Chip8.advance, Function.update, hxF, Ne.symm hxF,
    Nat.shiftRight_eq_div_pow]
  refine ⟨?_, ?_⟩
  · intro i hi hiF
    simp [hi, hiF]
  · omega

theorem shl_spec (s : Chip8) (x y rnd : Nat) (t : Int) (hx : x < 15) (hy : y < 16)
    (h : s.word_at (0x800E + 0x100 * x + 0x10 * y)) :
    (Chip8.execute s rnd t).error = none ∧
    (Chip8.execute s rnd t).state.reg 0xF = s.reg x / 128 % 2 ∧
    (Chip8.execute s rnd t).state.reg x = (2 * s.reg x) % 256 ∧
    (∀ i, i ≠ x → i ≠ 0xF → (Chip8.execute s rnd t).state.reg i = s.reg i) ∧
    (Chip8.execute s rnd t).state.PC = s.PC + 2 := by
  have hpc : s.PC ≤ 4094 := h.1
  have hw : 0x800E + 0x100 * x + 0x10 * y = 0x8000 + 0x100 * x + 0x10 * y + 14 := by omega
  rw [hw] at h
  have hx16 : x < 16 := by omega
  have hxF : x ≠ 15 := by omega
  have hn : (0x8000 + 0x100 * x + 0x10 * y + 14) % 16 = 14 := by omega
  rw [execute_alu s x y 14 rnd t hx16 hy (by omega) h]
  simp [Chip8.alu, and_000F, hn, Chip8.at_check, hx16, Ctl.and_then, Chip8.after_switch,
    Outcome.error, Outcome.state, Chip8.advance, Function.update, hxF, Ne.symm hxF,
    Nat.shiftRight_eq_div_pow, Nat.shiftLeft_eq]
  refine ⟨?_, ?_, ?_⟩
  · omega
  · intro i hi hiF
    simp [hi, hiF]
  · omega

theorem word_at_set_reg (s : Chip8) (w i v : Nat) (h : s.word_at w) :
    (s.set_reg i v).word_at w := h

/-- C4: for 8XY6 with x in 0..14, VF receives the least-significant bit of a = Vx and Vx
becomes a div 2; for 8XYE, VF receives bit 7 of a and Vx becomes (2 * a) mod 256.  No
register other than Vx and VF is written, the result does not depend on the content of
Vy (for y different from x), and PC advances by 2. -/
theorem c4_shift (s : Chip8) (x y rnd : Nat) (t : Int) (hx : x < 15) (hy : y < 16) :
    (s.word_at (0x8006 + 0x100 * x + 0x10 * y) →
      (Chip8.execute s rnd t).error = none ∧
      (Chip8.execute s rnd t).state.reg 0xF = s.reg x % 2 ∧
      (Chip8.execute s rnd t).state.reg x = s.reg x / 2 ∧
      (∀ i, i ≠ x → i ≠ 0xF → (Chip8.execute s rnd t).state.reg i = s.reg i) ∧
      (y ≠ x → ∀ v,
        (Chip8.execute (s.set_reg y v) rnd t).state.reg 0xF =
          (Chip8.execute s rnd t).state.reg 0xF ∧
        (Chip8.execute (s.set_reg y v) rnd t).state.reg x =
          (Chip8.execute s rnd t).state.reg x) ∧
      (Chip8.execute s rnd t).state.PC = s.PC + 2) ∧
    (s.word_at (0x800E + 0x100 * x + 0x10 * y) →
      (Chip8.execute s rnd t).error = none ∧
      (Chip8.execute s rnd t).state.reg 0xF = s.reg x / 128 % 2 ∧
      (Chip8.execute s rnd t).state.reg x = (2 * s.reg x) % 256 ∧
      (∀ i, i ≠ x → i ≠ 0xF → (Chip8.execute s rnd t).state.reg i = s.reg i) ∧
      (y ≠ x → ∀ v,
        (Chip8.execute (s.set_reg y v) rnd t).state.reg 0xF =
          (Chip8.execute s rnd t).state.reg 0xF ∧
        (Chip8.execute (s.set_reg y v) rnd t).state.reg x =
          (Chip8.execute s rnd t).state.reg x) ∧
      (Chip8.execute s rnd t).state.PC = s.PC + 2) := by
  constructor
  · intro h
    obtain ⟨he, hf, hr, hfr, hp⟩ := shr_spec s x y rnd t hx hy h
    refine ⟨he, hf, hr, hfr, fun hyx v => ?_, hp⟩
    obtain ⟨-, hf', hr', -, -⟩ :=
      shr_spec (s.set_reg y v) x y rnd t hx hy (word_at_set_reg s _ y v h)
    have hsame : (s.set_reg y v).reg x = s.reg x := by
      simp [Chip8.set_reg, Function.update, Ne.symm hyx]
    rw [hf, hr, hf', hr', hsame]
    exact ⟨rfl, rfl⟩
  · intro h
    obtain ⟨he, hf, hr, hfr, hp⟩ := shl_spec s x y rnd t hx hy h
    refine ⟨he, hf, hr, hfr, fun hyx v => ?_, hp⟩
    obtain ⟨-, hf', hr', -, -⟩ :=
      shl_spec (s.set_reg y v) x y rnd t hx hy (word_at_set_reg s _ y v h)
    have hsame : (s.set_reg y v).reg x = s.reg x := by
      simp [Chip8.set_reg, Function.update, Ne.symm hyx]
    rw [hf, hr, hf', hr', hsame]
    exact ⟨rfl, rfl⟩

/-- C4 witness: SHR V1 (word 0x8126) and SHL V1 (word 0x812E) with V1 = 0x85. -/
theorem c4_shift_witness :
    (1 < 15 ∧ 2 < 16) ∧
    ((Chip8.zeroed.poke16 0x200 0x8126).set_reg 1 0x85).word_at
      (0x8006 + 0x100 * 1 + 0x10 * 2) ∧
    (Chip8.execute ((Chip8.zeroed.poke16 0x200 0x8126).set_reg 1 0x85) 0 0).state.reg 0xF
      = 0x85 % 2 ∧
    (Chip8.execute ((Chip8.zeroed.poke16 0x200 0x8126).set_reg 1 0x85) 0 0).state.reg 1
      = 0x85 / 2 ∧
    ((Chip8.zeroed.poke16 0x200 0x812E).set_reg 1 0x85).word_at
      (0x800E + 0x100 * 1 + 0x10 * 2) ∧
    (Chip8.execute ((Chip8.zeroed.poke16 0x200 0x812E).set_reg 1 0x85) 0 0).state.reg 0xF
      = 0x85 / 128 % 2 ∧
    (Chip8.execute ((Chip8.zeroed.poke16 0x200 0x812E).set_reg 1 0x85) 0 0).state.reg 1
      = (2 * 0x85) % 256 :=
  have h6 : ((Chip8.zeroed.poke16 0x200 0x8126).set_reg 1 0x85).word_at
      (0x8006 + 0x100 * 1 + 0x10 * 2) := by decide
  have hE : ((Chip8.zeroed.poke16 0x200 0x812E).set_reg 1 0x85).word_at
      (0x800E + 0x100 * 1 + 0x10 * 2) := by decide
  have r6 := (c4_shift ((Chip8.zeroed.poke16 0x200 0x8126).set_reg 1 0x85) 1 2 0 0
    (by decide) (by decide)).1 h6
  have rE := (c4_shift ((Chip8.zeroed.poke16 0x200 0x812E).set_reg 1 0x85) 1 2 0 0
    (by decide) (by decide)).2 hE
  ⟨⟨by decide, by decide⟩, h6, r6.2.1, r6.2.2.1, hE, rE.2.1, rE.2.2.1⟩

/-! ## C5: CALL then RET -/

/-- C5: with SP < 16, the word 2NNN at PC = p and the word 00EE at NNN, the first
`execute` sets PC to NNN, SP to SP + 1 and stack[old SP] to p + 2; the second `execute`
sets PC to p + 2 and SP back to its value before the CALL. -/
theorem c5_call_ret (s : Chip8) (nnn rnd1 rnd2 : Nat) (t1 t2 : Int) (hsp : s.SP < 16)
    (hnnn : nnn ≤ 4094) (hcall : s.word_at (0x2000 + nnn))
    (hret : s.memory nnn = 0x00 ∧ s.memory (nnn + 1) = 0xEE) :
    (Chip8.execute s rnd1 t1).error = none ∧
    (Chip8.execute s rnd1 t1).state.PC = nnn ∧
    (Chip8.execute s rnd1 t1).state.SP = s.SP + 1 ∧
    (Chip8.execute s rnd1 t1).state.stack s.SP = s.PC + 2 ∧
    (Chip8.execute (Chip8.execute s rnd1 t1).state rnd2 t2).error = none ∧
    (Chip8.execute (Chip8.execute s rnd1 t1).state rnd2 t2).state.PC = s.PC + 2 ∧
    (Chip8.execute (Chip8.execute s rnd1 t1).state rnd2 t2).state.SP = s.SP := by
  have hpc : s.PC ≤ 4094 := hcall.1
  have hfam : (0x2000 + nnn) &&& 0xF000 = 0x2000 := by rw [and_F000]; omega
  have hlow : (0x2000 + nnn) &&& 0x0FFF = nnn := by rw [and_0FFF]; omega
  have h1 : Chip8.execute s rnd1 t1 = Outcome.ok (Chip8.update_timers
      { s with opcode := 0x2000 + nnn,
               stack := Function.update s.stack s.SP ((s.PC + 2) % 65536),
               SP := (s.SP + 1) % 256, PC := nnn } t1) := by
    rw [execute_eq s _ rnd1 t1 hcall]
    simp [Chip8.dispatch, hfam, hlow, Chip8.at_check, hsp, Chip8.after_switch]
  have hw2 : (Chip8.execute s rnd1 t1).state.word_at 0x00EE := by
    rw [h1]
    simp only [Outcome.state, Chip8.word_at, update_timers_PC, update_timers_memory]
    exact ⟨hnnn, by norm_num, hret.1, hret.2⟩
  have hfam2 : (0x00EE &&& 0xF000 : Nat) = 0 := by decide
  have hlow2 : (0x00EE &&& 0x00FF : Nat) = 0xEE := by decide
  have hsp1 : (s.SP + 1) % 256 = s.SP + 1 := by omega
  have hsp2 : (s.SP + 1 + 255) % 256 = s.SP := by omega
  have hpc2 : (s.PC + 2) % 65536 = s.PC + 2 := by omega
  rw [execute_eq _ _ rnd2 t2 hw2]
  rw [h1]
  simp [Chip8.dispatch, hfam2, hlow2, Chip8.at_check, hsp, Chip8.after_switch, Outcome.state,
    Outcome.error, hsp1, hsp2, hpc2]

/-- C5 witness: 0x2300 at 0x200 and 0x00EE at 0x300 give PC 0x300, SP 1, stack[0] 0x202,
then PC 0x202, SP 0. -/
theorem c5_call_ret_witness :
    ((Chip8.zeroed.poke16 0x200 0x2300).poke16 0x300 0x00EE).word_at (0x2000 + 0x300) ∧
    (Chip8.execute ((Chip8.zeroed.poke16 0x200 0x2300).poke16 0x300 0x00EE) 0 0).state.PC
      = 0x300 ∧
    (Chip8.execute ((Chip8.zeroed.poke16 0x200 0x2300).poke16 0x300 0x00EE) 0 0).state.SP
      = 0 + 1 ∧
    (Chip8.execute ((Chip8.zeroed.poke16 0x200 0x2300).poke16 0x300 0x00EE) 0 0).state.stack 0
      = 0x200 + 2 ∧
    (Chip8.execute (Chip8.execute ((Chip8.zeroed.poke16 0x200 0x2300).poke16 0x300 0x00EE)
      0 0).state 0 0).state.PC = 0x200 + 2 ∧
    (Chip8.execute (Chip8.execute ((Chip8.zeroed.poke16 0x200 0x2300).poke16 0x300 0x00EE)
      0 0).state 0 0).state.SP = 0 :=
  have hc : ((Chip8.zeroed.poke16 0x200 0x2300).poke16 0x300 0x00EE).word_at
      (0x2000 + 0x300) := by decide
  have r := c5_call_ret ((Chip8.zeroed.poke16 0x200 0x2300).poke16 0x300 0x00EE) 0x300 0 0 0 0
    (by decide) (by decide) hc (by decide)
  ⟨hc, r.2.1, r.2.2.1, r.2.2.2.1, r.2.2.2.2.2.1, r.2.2.2.2.2.2⟩

/-! ## The DRW loops -/

theorem and_two_pow_ne_zero (m k : Nat) : ((m &&& 2 ^ k) != 0) = m.testBit k := by
  by_cases h : m.testBit k = true
  · have h1 : (m &&& 2 ^ k).testBit k = true := by
      simp [Nat.testBit_and, h, Nat.testBit_two_pow_self]
    have h2 : m &&& 2 ^ k ≠ 0 := by
      intro h0
      rw [h0] at h1
      simp at h1
    simp [h, h2]
  · have h1 : m &&& 2 ^ k = 0 := by
      apply Nat.eq_of_testBit_eq
      intro j
      by_cases hj : k = j
      · subst hj
        simp [h]
      · simp [Nat.testBit_two_pow, hj]
    simp [h, h1]

/-- The C++ test `byte & (0x80 >> col)` reads bit `7 - col` of the byte. -/
theorem sprite_mask (m col : Nat) (h : col < 8) :
    ((m &&& (0x80 >>> col)) != 0) = m.testBit (7 - col) := by
  have hs : (0x80 >>> col : Nat) = 2 ^ (7 - col) := by
    interval_cases col <;> rfl
  rw [hs, and_two_pow_ne_zero]

theorem for_loop_eq (body : Nat → Chip8 → Ctl) (f : Nat → Chip8) (n start : Nat)
    (h : ∀ i, start ≤ i → i < start + n → body i (f i) = Ctl.next (f (i + 1))) :
    Chip8.for_loop body n start (f start) = Ctl.next (f (start + n)) := by
  induction n generalizing start with
  | zero => simp [Chip8.for_loop]
  | succ k ih =>
    unfold Chip8.for_loop
    rw [h start (le_refl _) (by omega)]
    simp only [Ctl.and_then]
    rw [ih (start + 1) (fun i h1 h2 => h i (by omega) (by omega))]
    congr 2
    omega

theorem xor_upto_false (f : Nat → Bool) (k : Nat) (h : ∀ i, i < k → f i = false) :
    xor_upto f k = false := by
  induction k with
  | zero => rfl
  | succ k ih =>
    simp [xor_upto, ih (fun i hi => h i (by omega)), h k (by omega)]

theorem xor_upto_single (f : Nat → Bool) (k i0 : Nat) (h0 : i0 < k)
    (h : ∀ i, i < k → i ≠ i0 → f i = false) : xor_upto f k = f i0 := by
  induction k with
  | zero => omega
  | succ k ih =>
    by_cases hk : i0 = k
    · subst hk
      simp [xor_upto, xor_upto_false f i0 (fun i hi => h i (by omega) (by omega))]
    · simp [xor_upto, ih (by omega) (fun i hi hne => h i (by omega) hne),
        h k (by omega) (Ne.symm hk)]

theorem any_upto_false (f : Nat → Bool) (k : Nat) (h : ∀ i, i < k → f i = false) :
    any_upto f k = false := by
  induction k with
  | zero => rfl
  | succ k ih =>
    simp [any_upto, ih (fun i hi => h i (by omega)), h k (by omega)]

theorem any_upto_true (f : Nat → Bool) (k i0 : Nat) (h0 : i0 < k) (h : f i0 = true) :
    any_upto f k = true := by
  induction k with
  | zero => omega
  | succ k ih =>
    by_cases hk : i0 = k
    · subst hk
      simp [any_upto, h]
    · simp [any_upto, ih (by omega)]

theorem reg_after_stable (reg0 : Nat → Nat) (scr0 : Nat → Nat → Bool) (mem : Nat → Nat)
    (I vx vy n p i : Nat) (hp : p ≤ 8 * n)
    (H : i ≠ 15 ∨ ∀ q, q < 8 * n → erased_at scr0 mem I vx vy q = false) :
    reg_after reg0 scr0 mem I vx vy p i = reg0 i := by
  unfold reg_after
  rcases H with H | H
  · split <;> simp [Function.update, H]
  · rw [any_upto_false _ p (fun q hq => H q (by omega))]
    simp

theorem screen_after_succ (scr0 : Nat → Nat → Bool) (mem : Nat → Nat) (I vx vy p r c : Nat) :
    screen_after scr0 mem I vx vy (p + 1) r c =
      xor (screen_after scr0 mem I vx vy p r c) (hit mem I vx vy p r c) := by
  simp [screen_after, xor_upto, Bool.xor_assoc]

theorem screen_after_keep (scr0 : Nat → Nat → Bool) (mem : Nat → Nat) (I vx vy p : Nat)
    (hb : sprite_bit mem I p = false) :
    screen_after scr0 mem I vx vy (p + 1) = screen_after scr0 mem I vx vy p := by
  funext r c
  rw [screen_after_succ]
  simp [hit, hb]

theorem screen_after_flip (scr0 : Nat → Nat → Bool) (mem : Nat → Nat) (I vx vy p : Nat)
    (hb : sprite_bit mem I p = true) :
    screen_after scr0 mem I vx vy (p + 1) =
      Function.update (screen_after scr0 mem I vx vy p) (target_y vy p)
        (Function.update (screen_after scr0 mem I vx vy p (target_y vy p)) (target_x vx p)
          (!screen_after scr0 mem I vx vy p (target_y vy p) (target_x vx p))) := by
  funext r c
  rw [screen_after_succ]
  by_cases hr : r = target_y vy p
  · subst hr
    by_cases hc : c = target_x vx p
    · subst hc
      simp [hit, hb]
    · simp [hit, hb, hc, Function.update]
  · simp [hit, hb, hr, Function.update]

theorem reg_after_keep (reg0 : Nat → Nat) (scr0 : Nat → Nat → Bool) (mem : Nat → Nat)
    (I vx vy p : Nat) (he : erased_at scr0 mem I vx vy p = false) :
    reg_after reg0 scr0 mem I vx vy (p + 1) = reg_after reg0 scr0 mem I vx vy p := by
  simp [reg_after, any_upto, he]

theorem reg_after_set (reg0 : Nat → Nat) (scr0 : Nat → Nat → Bool) (mem : Nat → Nat)
    (I vx vy p : Nat) (he : erased_at scr0 mem I vx vy p = true) :
    reg_after reg0 scr0 mem I vx vy (p + 1) =
      Function.update (reg_after reg0 scr0 mem I vx vy p) 15 1 := by
  unfold reg_after
  simp only [any_upto, he, Bool.or_true, if_true]
  split <;> simp

/-- One iteration of the inner DRW loop takes the machine described by `draw_state` at
step `p` to the one at step `p + 1`. -/
theorem draw_pixel_step (s : Chip8) (x y n p : Nat) (hx : x < 16) (hy : y < 16)
    (hp : p < 8 * n) (hI : ∀ row, row < n → s.I + row < 4096)
    (H : (x ≠ 15 ∧ y ≠ 15) ∨
      ∀ q, q < 8 * n → erased_at s.screen s.memory s.I (s.reg x) (s.reg y) q = false) :
    Chip8.draw_pixel x y (p / 8) (p % 8) (s.draw_state x y p) =
      Ctl.next (s.draw_state x y (p + 1)) := by
  have hrx : reg_after s.reg s.screen s.memory s.I (s.reg x) (s.reg y) p x = s.reg x :=
    reg_after_stable _ _ _ _ _ _ n p x (by omega) (H.imp (fun h => h.1) id)
  have hry : reg_after s.reg s.screen s.memory s.I (s.reg x) (s.reg y) p y = s.reg y :=
    reg_after_stable _ _ _ _ _ _ n p y (by omega) (H.imp (fun h => h.2) id)
  have hrow : s.I + p / 8 < 4096 := hI _ (by omega)
  have hdx : (p % 8 + s.reg x) % 64 % 65536 = target_x (s.reg x) p := by
    unfold target_x; omega
  have hdy : (p / 8 + s.reg y) % 32 % 65536 = target_y (s.reg y) p := by
    unfold target_y; omega
  have hdx64 : target_x (s.reg x) p < 64 := by unfold target_x; omega
  have hdy32 : target_y (s.reg y) p < 32 := by unfold target_y; omega
  have hbit : ((s.memory (s.I + p / 8) &&& 128 >>> (p % 8)) != 0) = sprite_bit s.memory s.I p :=
    rfl
  unfold Chip8.draw_pixel
  simp only [Chip8.draw_state, Chip8.at_check, Chip8.WIDTH, Chip8.HEIGHT, hrx, hry, hx, hy, hrow,
    hdx, hdy, hdx64, hdy32, if_true, Chip8.mark_erased, hbit]
  cases hb : sprite_bit s.memory s.I p
  · have he : erased_at s.screen s.memory s.I (s.reg x) (s.reg y) p = false := by
      simp [erased_at, hb]
    cases hprev : screen_after s.screen s.memory s.I (s.reg x) (s.reg y) p
        (target_y (s.reg y) p) (target_x (s.reg x) p) <;>
      simp [screen_after_keep _ _ _ _ _ _ hb, reg_after_keep _ _ _ _ _ _ _ he, hprev]
  · cases hprev : screen_after s.screen s.memory s.I (s.reg x) (s.reg y) p
        (target_y (s.reg y) p) (target_x (s.reg x) p)
    · have he : erased_at s.screen s.memory s.I (s.reg x) (s.reg y) p = false := by
        simp [erased_at, hb, hprev]
      simp [screen_after_flip _ _ _ _ _ _ hb, reg_after_keep _ _ _ _ _ _ _ he, hprev]
    · have he : erased_at s.screen s.memory s.I (s.reg x) (s.reg y) p = true := by
        simp [erased_at, hb, hprev]
      simp [screen_after_flip _ _ _ _ _ _ hb, reg_after_set _ _ _ _ _ _ _ he, hprev]

theorem draw_state_zero (s : Chip8) (x y : Nat) : s.draw_state x y 0 = s := by
  have hs : screen_after s.screen s.memory s.I (s.reg x) (s.reg y) 0 = s.screen := by
    funext r c
    simp [screen_after, xor_upto]
  simp [Chip8.draw_state, hs, reg_after, any_upto]

/-- The two nested DRW loops, run from state `s`, end normally in `draw_state` at step
`8 * n`. -/
theorem draw_loops (s : Chip8) (x y n : Nat) (hx : x < 16) (hy : y < 16)
    (hI : ∀ row, row < n → s.I + row < 4096)
    (H : (x ≠ 15 ∧ y ≠ 15) ∨
      ∀ q, q < 8 * n → erased_at s.screen s.memory s.I (s.reg x) (s.reg y) q = false) :
    Chip8.for_loop (fun row t => Chip8.for_loop (fun col u => Chip8.draw_pixel x y row col u) 8 0 t)
      n 0 s = Ctl.next (s.draw_state x y (8 * n)) := by
  have houter := for_loop_eq
    (fun row t => Chip8.for_loop (fun col u => Chip8.draw_pixel x y row col u) 8 0 t)
    (fun row => s.draw_state x y (8 * row)) n 0 (fun row _ hrow => by
      have hinner := for_loop_eq (fun col u => Chip8.draw_pixel x y row col u)
        (fun col => s.draw_state x y (8 * row + col)) 8 0 (fun col _ hcol => by
          have hstep := draw_pixel_step s x y n (8 * row + col) hx hy (by omega) hI H
          have h1 : (8 * row + col) / 8 = row := by omega
          have h2 : (8 * row + col) % 8 = col := by omega
          rw [h1, h2] at hstep
          exact hstep)
      simpa [Nat.mul_add] using hinner)
  simpa [draw_state_zero] using houter

/-- Within one sprite (at most 16 rows of 8 columns) two different steps address two
different pixels: a sprite never wraps onto itself. -/
theorem target_injective (vx vy q q' : Nat) (hq : q < 128) (hq' : q' < 128)
    (hx : target_x vx q = target_x vx q') (hy : target_y vy q = target_y vy q') : q = q' := by
  unfold target_x at hx
  unfold target_y at hy
  omega

theorem hit_other (mem : Nat → Nat) (I vx vy q q' : Nat) (hq : q < 128) (hq' : q' < 128)
    (hne : q' ≠ q) : hit mem I vx vy q' (target_y vy q) (target_x vx q) = false := by
  unfold hit
  by_cases hy : target_y vy q = target_y vy q'
  · by_cases hx : target_x vx q = target_x vx q'
    · exact absurd (target_injective vx vy q q' hq hq' hx hy).symm hne
    · simp [hx]
  · simp [hy]

theorem hit_self (mem : Nat → Nat) (I vx vy q : Nat) :
    hit mem I vx vy q (target_y vy q) (target_x vx q) = sprite_bit mem I q := by
  simp [hit]

/-- The pixel addressed by step `q`, after the first `p` steps: flipped by the sprite bit
of step `q` if that step is among them, untouched otherwise. -/
theorem screen_after_at_target (scr0 : Nat → Nat → Bool) (mem : Nat → Nat)
    (I vx vy p q : Nat) (hp : p ≤ 128) (hq : q < 128) :
    screen_after scr0 mem I vx vy p (target_y vy q) (target_x vx q) =
      xor (scr0 (target_y vy q) (target_x vx q)) (if q < p then sprite_bit mem I q else false) := by
  unfold screen_after
  congr 1
  by_cases hqp : q < p
  · rw [if_pos hqp, xor_upto_single _ p q hqp (fun i hi hne =>
      hit_other mem I vx vy q i hq (by omega) hne), hit_self]
  · rw [if_neg hqp, xor_upto_false _ p (fun i hi =>
      hit_other mem I vx vy q i hq (by omega) (by omega))]

theorem screen_after_off_target (scr0 : Nat → Nat → Bool) (mem : Nat → Nat)
    (I vx vy p r c : Nat) (h : ∀ q, q < p → ¬ (r = target_y vy q ∧ c = target_x vx q)) :
    screen_after scr0 mem I vx vy p r c = scr0 r c := by
  unfold screen_after
  rw [xor_upto_false _ p (fun q hq => by
    have := h q hq
    unfold hit
    by_cases hr : r = target_y vy q
    · by_cases hc : c = target_x vx q
      · exact absurd ⟨hr, hc⟩ this
      · simp [hc]
    · simp [hr])]
  simp

/-- On a blank framebuffer no step of a sprite turns a pixel off. -/
theorem erased_at_blank (scr0 : Nat → Nat → Bool) (mem : Nat → Nat) (I vx vy q : Nat)
    (hblank : ∀ r c, scr0 r c = false) (hq : q < 128) :
    erased_at scr0 mem I vx vy q = false := by
  unfold erased_at
  rw [screen_after_at_target scr0 mem I vx vy q q (by omega) hq]
  simp [hblank]

theorem decode_draw (x y n : Nat) (hx : x < 16) (hy : y < 16) (hn : n < 16) :
    (0xD000 + 0x100 * x + 0x10 * y + n) &&& 0xF000 = 0xD000 ∧
    ((0xD000 + 0x100 * x + 0x10 * y + n) &&& 0x0F00) >>> 8 = x ∧
    ((0xD000 + 0x100 * x + 0x10 * y + n) &&& 0x00F0) >>> 4 = y ∧
    (0xD000 + 0x100 * x + 0x10 * y + n) &&& 0x000F = n := by
  rw [and_F000, and_0F00, and_00F0, and_000F]
  omega

theorem draw_eq (s : Chip8) (x y n : Nat) (hx : x < 16) (hy : y < 16)
    (hI : ∀ row, row < n → s.I + row < 4096)
    (H : (x ≠ 15 ∧ y ≠ 15) ∨
      ∀ q, q < 8 * n → erased_at s.screen s.memory s.I ((s.set_reg 0xF 0).reg x)
        ((s.set_reg 0xF 0).reg y) q = false) :
    Chip8.draw s x y n = Ctl.next (s.draw_result x y n) := by
  have hloops := draw_loops (s.set_reg 0xF 0) x y n hx hy hI H
  unfold Chip8.draw
  simp only [Chip8.set_reg] at hloops
  simp only [hloops, Ctl.and_then]
  rfl

/-- Execution of DXYN: `reg[0xF] = 0`, the two loops, `draw_pending = true`, `PC += 2`,
then the timer block. -/
theorem execute_draw (s : Chip8) (x y n rnd : Nat) (t : Int) (hx : x < 16) (hy : y < 16)
    (hn : n < 16) (h : s.word_at (0xD000 + 0x100 * x + 0x10 * y + n))
    (hI : ∀ row, row < n → s.I + row < 4096)
    (H : (x ≠ 15 ∧ y ≠ 15) ∨
      ∀ q, q < 8 * n → erased_at s.screen s.memory s.I ((s.set_reg 0xF 0).reg x)
        ((s.set_reg 0xF 0).reg y) q = false) :
    Chip8.execute s rnd t = Outcome.ok (Chip8.update_timers
      (Chip8.draw_result { s with opcode := 0xD000 + 0x100 * x + 0x10 * y + n } x y n) t) := by
  obtain ⟨hf, hdx, hdy, hdn⟩ := decode_draw x y n hx hy hn
  rw [execute_eq s _ rnd t h]
  have hd := draw_eq { s with opcode := 0xD000 + 0x100 * x + 0x10 * y + n } x y n hx hy hI H
  simp only [Chip8.dispatch, hf, hdx, hdy, hdn]
  norm_num
  rw [hd]
  rfl

/-! ## C6: DRW draws by exclusive or, with wrap-around -/

theorem sprite_bit_eq (mem : Nat → Nat) (I row col : Nat) (hcol : col < 8) :
    sprite_bit mem I (8 * row + col) = (mem (I + row)).testBit (7 - col) := by
  unfold sprite_bit
  have h1 : (8 * row + col) / 8 = row := by omega
  have h2 : (8 * row + col) % 8 = col := by omega
  rw [h1, h2]
  exact sprite_mask _ col hcol

/-- C6: for DXYN with x, y in 0..14 and the sprite rows inside memory, `execute` returns
without error (no framebuffer access is out of range, whatever Vx and Vy hold); each pixel
at column (Vx + c) mod 64 of row (Vy + r) mod 32, r < N, c < 8, becomes its prior value XOR
bit (7 - c) of memory[I + r]; every other pixel, I and memory are unchanged; PC advances
by 2. -/
theorem c6_draw (s : Chip8) (x y n rnd : Nat) (t : Int) (hx : x < 15) (hy : y < 15)
    (hn : n < 16) (hI : s.I + n - 1 ≤ 4095)
    (h : s.word_at (0xD000 + 0x100 * x + 0x10 * y + n)) :
    (Chip8.execute s rnd t).error = none ∧
    (∀ row col, row < n → col < 8 →
      (Chip8.execute s rnd t).state.screen ((s.reg y + row) % 32) ((s.reg x + col) % 64) =
        xor (s.screen ((s.reg y + row) % 32) ((s.reg x + col) % 64))
          ((s.memory (s.I + row)).testBit (7 - col))) ∧
    (∀ r c, (∀ row col, row < n → col < 8 →
        ¬ (r = (s.reg y + row) % 32 ∧ c = (s.reg x + col) % 64)) →
      (Chip8.execute s rnd t).state.screen r c = s.screen r c) ∧
    (Chip8.execute s rnd t).state.I = s.I ∧
    (Chip8.execute s rnd t).state.memory = s.memory ∧
    (Chip8.execute s rnd t).state.PC = s.PC + 2 := by
  have hpc : s.PC ≤ 4094 := h.1
  have hrows : ∀ row, row < n → s.I + row < 4096 := fun row hrow => by omega
  have hxF : x ≠ 15 := by omega
  have hyF : y ≠ 15 := by omega
  rw [execute_draw s x y n rnd t (by omega) (by omega) hn h hrows (Or.inl ⟨hxF, hyF⟩)]
  simp only [Outcome.error, Outcome.state, update_timers_screen, update_timers_I,
    update_timers_memory, update_timers_PC, Chip8.draw_result, Chip8.advance, Chip8.draw_state,
    Chip8.set_reg, Function.update, hxF, hyF, dite_false, eq_rec_constant]
  refine ⟨trivial, ?_, ?_, trivial, trivial, by omega⟩
  · intro row col hrow hcol
    have hty : (s.reg y + row) % 32 = target_y (s.reg y) (8 * row + col) := by
      unfold target_y; omega
    have htx : (s.reg x + col) % 64 = target_x (s.reg x) (8 * row + col) := by
      unfold target_x; omega
    rw [hty, htx, screen_after_at_target _ _ _ _ _ (8 * n) (8 * row + col) (by omega) (by omega),
      if_pos (by omega), sprite_bit_eq _ _ _ _ hcol]
  · intro r c hrc
    apply screen_after_off_target
    intro q hq hq2
    apply hrc (q / 8) (q % 8) (by omega) (by omega)
    unfold target_y target_x at hq2
    constructor
    · rw [hq2.1]; omega
    · rw [hq2.2]; omega

/-- C6 witness: glyph 0 (F0, 90, 90, 90, F0) drawn with N = 5 at (0, 0) on the blank
framebuffer left by `reset` yields exactly the glyph bit pattern in rows 0..4, columns
0..7. -/
theorem c6_draw_witness :
    Chip8.glyph0_draw.word_at (0xD000 + 0x100 * 0 + 0x10 * 1 + 5) ∧
    Chip8.glyph0_draw.I + 5 - 1 ≤ 4095 ∧
    (Chip8.execute Chip8.glyph0_draw 0 0).error = none ∧
    (∀ row col, row < 5 → col < 8 →
      (Chip8.execute Chip8.glyph0_draw 0 0).state.screen
          ((Chip8.glyph0_draw.reg 1 + row) % 32) ((Chip8.glyph0_draw.reg 0 + col) % 64) =
        xor (Chip8.glyph0_draw.screen
          ((Chip8.glyph0_draw.reg 1 + row) % 32) ((Chip8.glyph0_draw.reg 0 + col) % 64))
          ((Chip8.glyph0_draw.memory (Chip8.glyph0_draw.I + row)).testBit (7 - col))) ∧
    (∀ r, r < 5 → ∀ c, c < 8 →
      (Chip8.execute Chip8.glyph0_draw 0 0).state.screen r c =
        ([0xF0, 0x90, 0x90, 0x90, 0xF0].getD r 0).testBit (7 - c)) ∧
    (Chip8.execute Chip8.glyph0_draw 0 0).state.reg 0xF = 0 :=
  have hw : Chip8.glyph0_draw.word_at (0xD000 + 0x100 * 0 + 0x10 * 1 + 5) := by decide
  have hI : Chip8.glyph0_draw.I + 5 - 1 ≤ 4095 := by decide
  have r := c6_draw Chip8.glyph0_draw 0 1 5 0 0 (by decide) (by decide) (by decide) hI hw
  ⟨hw, hI, r.1, r.2.1, by decide, by decide⟩

/-! ## C7: the erasure flag of DRW -/

/-- C7: on a blank framebuffer DXYN (any x, y, N, sprite rows inside memory) leaves
VF = 0.  When moreover x, y are in 0..14 and the sprite has a set bit, executing the same
DXYN again on the resulting framebuffer (same Vx, Vy, I and sprite bytes) leaves
VF = 1. -/
theorem c7_erasure_flag (s : Chip8) (x y n rnd : Nat) (t : Int) (hx : x < 16) (hy : y < 16)
    (hn : n < 16) (hblank : ∀ r c, s.screen r c = false) (hI : s.I + n - 1 ≤ 4095)
    (h : s.word_at (0xD000 + 0x100 * x + 0x10 * y + n)) :
    (Chip8.execute s rnd t).error = none ∧
    (Chip8.execute s rnd t).state.reg 0xF = 0 ∧
    (x < 15 → y < 15 →
      (∃ row col, row < n ∧ col < 8 ∧ (s.memory (s.I + row)).testBit (7 - col) = true) →
      ∀ (s2 : Chip8) (rnd2 : Nat) (t2 : Int),
        s2.word_at (0xD000 + 0x100 * x + 0x10 * y + n) →
        s2.screen = (Chip8.execute s rnd t).state.screen →
        s2.reg x = s.reg x → s2.reg y = s.reg y → s2.I = s.I →
        (∀ row, row < n → s2.memory (s2.I + row) = s.memory (s.I + row)) →
        (Chip8.execute s2 rnd2 t2).error = none ∧
        (Chip8.execute s2 rnd2 t2).state.reg 0xF = 1) := by
  have hrows : ∀ row, row < n → s.I + row < 4096 := fun row hrow => by omega
  have hno : ∀ q, q < 8 * n → erased_at s.screen s.memory s.I (Function.update s.reg 15 0 x)
      (Function.update s.reg 15 0 y) q = false :=
    fun q hq => erased_at_blank _ _ _ _ _ q hblank (by omega)
  have h1 := execute_draw s x y n rnd t hx hy hn h hrows (Or.inr hno)
  refine ⟨by rw [h1]; rfl, ?_, ?_⟩
  · rw [h1]
    simp only [Outcome.state, update_timers_reg, Chip8.draw_result, Chip8.advance,
      Chip8.draw_state, reg_after, Chip8.set_reg]
    rw [any_upto_false _ _ hno]
    simp
  · intro hx15 hy15 ⟨row0, col0, hrow0, hcol0, hbit⟩ s2 rnd2 t2 hw2 hscr hrx hry hI2 hmem
    have hxF : x ≠ 15 := by omega
    have hyF : y ≠ 15 := by omega
    have hrows2 : ∀ row, row < n → s2.I + row < 4096 := fun row hrow => by
      rw [hI2]; exact hrows row hrow
    have h2 := execute_draw s2 x y n rnd2 t2 hx hy hn hw2 hrows2 (Or.inl ⟨hxF, hyF⟩)
    refine ⟨by rw [h2]; rfl, ?_⟩
    -- the screen seen by the second draw
    have hscr1 : s2.screen = screen_after s.screen s.memory s.I (s.reg x) (s.reg y) (8 * n) := by
      rw [hscr, h1]
      simp [Outcome.state, Chip8.draw_result, Chip8.advance, Chip8.draw_state, Chip8.set_reg,
        Function.update, hxF, hyF]
    have hq0 : 8 * row0 + col0 < 8 * n := by omega
    have hb1 : sprite_bit s.memory s.I (8 * row0 + col0) = true := by
      rw [sprite_bit_eq _ _ _ _ hcol0]; exact hbit
    have hb2 : sprite_bit s2.memory s2.I (8 * row0 + col0) = true := by
      rw [sprite_bit_eq _ _ _ _ hcol0, hmem row0 hrow0]; exact hbit
    have her : erased_at s2.screen s2.memory s2.I (s.reg x) (s.reg y) (8 * row0 + col0) = true := by
      unfold erased_at
      rw [hb2, screen_after_at_target _ _ _ _ _ _ _ (by omega) (by omega), hscr1,
        screen_after_at_target _ _ _ _ _ _ _ (by omega) (by omega), if_pos hq0, hb1]
      simp [hblank]
    rw [h2]
    simp only [Outcome.state, update_timers_reg, Chip8.draw_result, Chip8.advance,
      Chip8.draw_state, reg_after, Chip8.set_reg, Function.update, hxF, hyF, dite_false,
      eq_rec_constant, hrx, hry]
    have hany := any_upto_true (erased_at s2.screen s2.memory s2.I (s.reg x) (s.reg y)) (8 * n)
      (8 * row0 + col0) hq0 her
    simp [hany]

/-- C7 witness: glyph 0 drawn twice at (0, 0) on the blank framebuffer left by `reset`;
VF is 0 after the first draw and 1 after the second. -/
theorem c7_erasure_flag_witness :
    (∀ r c, Chip8.glyph0_draw.screen r c = false) ∧
    Chip8.glyph0_draw.word_at (0xD000 + 0x100 * 0 + 0x10 * 1 + 5) ∧
    (Chip8.execute Chip8.glyph0_draw 0 0).state.reg 0xF = 0 ∧
    (Chip8.execute ((Chip8.execute Chip8.glyph0_draw 0 0).state.set_PC 0x200) 0 0).state.reg 0xF
      = 1 :=
  have hb : ∀ r c, Chip8.glyph0_draw.screen r c = false := fun _ _ => rfl
  have hw : Chip8.glyph0_draw.word_at (0xD000 + 0x100 * 0 + 0x10 * 1 + 5) := by decide
  have r := c7_erasure_flag Chip8.glyph0_draw 0 1 5 0 0 (by decide) (by decide) (by decide)
    hb (by decide) hw
  ⟨hb, hw, r.2.1,
    (r.2.2 (by decide) (by decide) ⟨0, 0, by decide, by decide, by decide⟩
      ((Chip8.execute Chip8.glyph0_draw 0 0).state.set_PC 0x200) 0 0 (by decide) rfl
      (by decide) (by decide) (by decide) (fun _ _ => by rfl)).2⟩

/-! ## C8: FX0A, wait for a key -/

theorem decode_misc (x b : Nat) (hx : x < 16) (hb : b < 256) :
    (0xF000 + 0x100 * x + b) &&& 0xF000 = 0xF000 ∧
    ((0xF000 + 0x100 * x + b) &&& 0x0F00) >>> 8 = x ∧
    (0xF000 + 0x100 * x + b) &&& 0x00FF = b := by
  rw [and_F000, and_0F00, and_00FF]
  omega

/-- Execution of a word of family F: the inner switch, then `PC += 2`, then the timer
block. -/
theorem execute_misc (s : Chip8) (x b rnd : Nat) (t : Int) (hx : x < 16) (hb : b < 256)
    (h : s.word_at (0xF000 + 0x100 * x + b)) :
    Chip8.execute s rnd t =
      Chip8.after_switch
        ((Chip8.misc { s with opcode := 0xF000 + 0x100 * x + b } x).and_then
          fun s1 => Ctl.next (Chip8.advance s1 2)) t := by
  obtain ⟨hf, hdx, -⟩ := decode_misc x b hx hb
  rw [execute_eq s _ rnd t h]
  simp [Chip8.dispatch, hf, hdx]

/-- The key scan of FX0A, as a function of the state it starts from. -/
theorem misc_wait_key (s : Chip8) (x : Nat) (h : s.opcode &&& 0x00FF = 0x0A) :
    Chip8.misc s x =
      (Chip8.for_loop (fun i t =>
        Chip8.at_check t 16 i <|
        if t.key i then
          Chip8.at_check t 16 x <|
          Ctl.next { t with reg := Function.update t.reg x (i % 256), wait_for_key := false }
        else Ctl.next t) 16 0 { s with wait_for_key := true }).and_then
        fun s2 => if s2.wait_for_key then Ctl.returned s2 else Ctl.next s2 := by
  unfold Chip8.misc
  simp only [h]
  norm_num

/-- FX0A with no key pressed: `execute` returns through the early `return`, having only
recorded the opcode and set `wait_for_key`. -/
theorem execute_wait_no_key (s : Chip8) (x rnd : Nat) (t : Int) (hx : x < 16)
    (h : s.word_at (0xF00A + 0x100 * x)) (hk : ∀ k, k < 16 → s.key k = false) :
    Chip8.execute s rnd t =
      Outcome.ok { s with opcode := 0xF00A + 0x100 * x, wait_for_key := true } := by
  have hw : 0xF00A + 0x100 * x = 0xF000 + 0x100 * x + 0x0A := by omega
  have hlow := (decode_misc x 0x0A hx (by norm_num)).2.2
  rw [hw] at h ⊢
  rw [execute_misc s x 0x0A rnd t hx (by norm_num) h, misc_wait_key _ x hlow]
  have hloop := for_loop_eq (fun i t =>
        Chip8.at_check t 16 i <|
        if t.key i then
          Chip8.at_check t 16 x <|
          Ctl.next { t with reg := Function.update t.reg x (i % 256), wait_for_key := false }
        else Ctl.next t)
    (fun _ => { s with opcode := 0xF000 + 0x100 * x + 0x0A, wait_for_key := true }) 16 0
    (fun i _ hi => by
      have hi16 : i < 16 := by omega
      simp [Chip8.at_check, hi16, hk i hi16])
  simp only at hloop
  rw [hloop]
  simp [Ctl.and_then, Chip8.after_switch]

/-- FX0A with exactly one key `k` pressed. -/
theorem execute_wait_one_key (s : Chip8) (x k rnd : Nat) (t : Int) (hx : x < 16)
    (h : s.word_at (0xF00A + 0x100 * x)) (hk : k < 16) (hdown : s.key k = true)
    (hup : ∀ j, j < 16 → j ≠ k → s.key j = false) :
    (Chip8.execute s rnd t).error = none ∧
    (Chip8.execute s rnd t).state.reg = Function.update s.reg x k ∧
    (Chip8.execute s rnd t).state.PC = s.PC + 2 := by
  have hpc : s.PC ≤ 4094 := h.1
  have hw : 0xF00A + 0x100 * x = 0xF000 + 0x100 * x + 0x0A := by omega
  have hlow := (decode_misc x 0x0A hx (by norm_num)).2.2
  rw [hw] at h
  rw [execute_misc s x 0x0A rnd t hx (by norm_num) h, misc_wait_key _ x hlow]
  have hloop := for_loop_eq (fun i t =>
        Chip8.at_check t 16 i <|
        if t.key i then
          Chip8.at_check t 16 x <|
          Ctl.next { t with reg := Function.update t.reg x (i % 256), wait_for_key := false }
        else Ctl.next t)
    (fun i => if i ≤ k then { s with opcode := 0xF000 + 0x100 * x + 0x0A, wait_for_key := true }
      else { s with opcode := 0xF000 + 0x100 * x + 0x0A, reg := Function.update s.reg x k,
                    wait_for_key := false }) 16 0
    (fun i _ hi => by
      have hi16 : i < 16 := by omega
      rcases Nat.lt_trichotomy i k with hlt | heq | hgt
      · have h1 : i ≤ k := by omega
        have h2 : i + 1 ≤ k := by omega
        simp [Chip8.at_check, hi16, hup i hi16 (by omega), h1, h2]
      · subst heq
        have hmod : i % 256 = i := by omega
        simp [Chip8.at_check, hi16, hdown, hx, hmod]
      · have h1 : ¬ i ≤ k := by omega
        have h2 : ¬ i + 1 ≤ k := by omega
        simp [Chip8.at_check, hi16, hup i hi16 (by omega), h1, h2])
  have h16 : ¬ (0 + 16 ≤ k) := by omega
  simp only [Nat.zero_le, if_true, h16, if_false] at hloop
  rw [hloop]
  simp [Ctl.and_then, Chip8.after_switch, Outcome.error, Outcome.state, Chip8.advance]
  omega

/-- While no key is pressed, any run of successive `execute` calls on FX0A ends without
error with PC and all registers unchanged. -/
theorem run_wait_no_key (x : Nat) (hx : x < 16) (inputs : List (Nat × Int)) (s : Chip8)
    (h : s.word_at (0xF00A + 0x100 * x)) (hk : ∀ k, k < 16 → s.key k = false) :
    (Chip8.run s inputs).error = none ∧ (Chip8.run s inputs).state.PC = s.PC ∧
    (Chip8.run s inputs).state.reg = s.reg := by
  induction inputs generalizing s with
  | nil => simp [Chip8.run, Outcome.error, Outcome.state]
  | cons a rest ih =>
    obtain ⟨rnd, t⟩ := a
    have h1 := execute_wait_no_key s x rnd t hx h hk
    have ih1 := ih { s with opcode := 0xF00A + 0x100 * x, wait_for_key := true } h hk
    simp only [Chip8.run, h1]
    exact ih1

/-- C8: for FX0A, if all 16 keys are unpressed then `execute`, applied any number of
times in succession, leaves PC and all registers unchanged; if exactly one key k is
pressed, a single `execute` stores k in Vx (and changes no other register) and advances
PC by 2. -/
theorem c8_wait_key (s : Chip8) (x : Nat) (hx : x < 16) (h : s.word_at (0xF00A + 0x100 * x)) :
    ((∀ k, k < 16 → s.key k = false) →
      ∀ inputs : List (Nat × Int),
        (Chip8.run s inputs).error = none ∧ (Chip8.run s inputs).state.PC = s.PC ∧
        ∀ i, (Chip8.run s inputs).state.reg i = s.reg i) ∧
    (∀ k, k < 16 → s.key k = true → (∀ j, j < 16 → j ≠ k → s.key j = false) →
      ∀ (rnd : Nat) (t : Int),
        (Chip8.execute s rnd t).error = none ∧
        (Chip8.execute s rnd t).state.reg x = k ∧
        (∀ i, i ≠ x → (Chip8.execute s rnd t).state.reg i = s.reg i) ∧
        (Chip8.execute s rnd t).state.PC = s.PC + 2) := by
  constructor
  · intro hk inputs
    obtain ⟨he, hp, hr⟩ := run_wait_no_key x hx inputs s h hk
    exact ⟨he, hp, fun i => by rw [hr]⟩
  · intro k hk hdown hup rnd t
    obtain ⟨he, hr, hp⟩ := execute_wait_one_key s x k rnd t hx h hk hdown hup
    refine ⟨he, ?_, ?_, hp⟩
    · rw [hr]; simp
    · intro i hi
      rw [hr]; simp [Function.update, hi]

/-- C8 witness: FX0A with x = 3 (word 0xF30A) at 0x200; three calls with no key pressed,
then one call with key 7 pressed. -/
theorem c8_wait_key_witness :
    (Chip8.zeroed.poke16 0x200 0xF30A).word_at (0xF00A + 0x100 * 3) ∧
    (Chip8.run (Chip8.zeroed.poke16 0x200 0xF30A) [(0, 0), (0, 2), (0, 40)]).state.PC = 0x200 ∧
    ((Chip8.zeroed.poke16 0x200 0xF30A).press 7).word_at (0xF00A + 0x100 * 3) ∧
    (Chip8.execute ((Chip8.zeroed.poke16 0x200 0xF30A).press 7) 0 0).state.reg 3 = 7 ∧
    (Chip8.execute ((Chip8.zeroed.poke16 0x200 0xF30A).press 7) 0 0).state.PC = 0x200 + 2 :=
  have h0 : (Chip8.zeroed.poke16 0x200 0xF30A).word_at (0xF00A + 0x100 * 3) := by decide
  have h1 : ((Chip8.zeroed.poke16 0x200 0xF30A).press 7).word_at (0xF00A + 0x100 * 3) := by
    decide
  have r0 := (c8_wait_key (Chip8.zeroed.poke16 0x200 0xF30A) 3 (by decide) h0).1
    (fun _ _ => rfl) [(0, 0), (0, 2), (0, 40)]
  have r1 := (c8_wait_key ((Chip8.zeroed.poke16 0x200 0xF30A).press 7) 3 (by decide) h1).2
    7 (by decide) (by decide) (by decide) 0 0
  ⟨h0, r0.2.1, h1, r1.2.1, r1.2.2.2⟩

/-! ## C9: the timer block -/

/-- The timer block itself: when at least 17 ms have passed since the last update, each
timer is reduced by 1 if positive (truncated subtraction keeps 0 at 0) and the time stamp
becomes the current time; otherwise nothing changes. -/
theorem update_timers_spec (s : Chip8) (t : Int) :
    (t - s.last_timer_update_ms ≥ 17 →
      (Chip8.update_timers s t).delay_timer = s.delay_timer - 1 ∧
      (Chip8.update_timers s t).sound_timer = s.sound_timer - 1 ∧
      (Chip8.update_timers s t).last_timer_update_ms = t) ∧
    (t - s.last_timer_update_ms < 17 → Chip8.update_timers s t = s) := by
  constructor
  · intro h
    by_cases h2 : s.delay_timer > 0 <;> by_cases h3 : s.sound_timer > 0 <;>
      simp [Chip8.update_timers, h, h2, h3] <;> omega
  · intro h
    have h' : ¬ (t - s.last_timer_update_ms ≥ 17) := by omega
    simp [Chip8.update_timers, h']

/-- Every call of `execute` that returns normally either fell through the switch, in
which case the timer block ran on the state left by the instruction, or left through the
early `return` of FX0A, in which case the timer block did not run. -/
theorem execute_ok_cases (s : Chip8) (rnd : Nat) (t : Int) (s' : Chip8)
    (h : Chip8.execute s rnd t = Outcome.ok s') :
    ∃ s1, Chip8.fetch s = Ctl.next s1 ∧
      ((∃ s2, Chip8.dispatch s1 rnd = Ctl.next s2 ∧ s' = Chip8.update_timers s2 t) ∨
        (Chip8.dispatch s1 rnd = Ctl.returned s')) := by
  unfold Chip8.execute at h
  cases hf : Chip8.fetch s with
  | next s1 =>
    rw [hf] at h
    refine ⟨s1, rfl, ?_⟩
    simp only at h
    cases hd : Chip8.dispatch s1 rnd with
    | next s2 =>
      rw [hd] at h
      simp only [Chip8.after_switch, Outcome.ok.injEq] at h
      exact Or.inl ⟨s2, rfl, h.symm⟩
    | returned s2 =>
      rw [hd] at h
      simp only [Chip8.after_switch, Outcome.ok.injEq] at h
      rw [h]
      exact Or.inr rfl
    | threw e s2 =>
      rw [hd] at h
      simp [Chip8.after_switch] at h
  | returned s1 =>
    exfalso
    simp only [Chip8.fetch, Chip8.at_check] at hf
    split_ifs at hf
  | threw e s1 =>
    rw [hf] at h
    simp at h

/-- C9, evaluation at the failing input: FX0A (word 0xF00A) at 0x200 with no key pressed,
delay timer 5, sound timer 3, last timer update at 0 ms, clock sampled at 1000 ms.
`execute` returns without error through the early `return` of the FX0A case, so the timer
block is skipped: both timers and the time stamp keep their values although
1000 - 0 >= 17. -/
theorem c9_timers_skipped_while_waiting :
    ((Chip8.zeroed.poke16 0x200 0xF00A).set_timers 5 3).word_at 0xF00A ∧
    (1000 : Int) - ((Chip8.zeroed.poke16 0x200 0xF00A).set_timers 5 3).last_timer_update_ms
      ≥ 17 ∧
    (Chip8.execute ((Chip8.zeroed.poke16 0x200 0xF00A).set_timers 5 3) 0 1000).error = none ∧
    (Chip8.execute ((Chip8.zeroed.poke16 0x200 0xF00A).set_timers 5 3) 0 1000).state.delay_timer
      = 5 ∧
    (Chip8.execute ((Chip8.zeroed.poke16 0x200 0xF00A).set_timers 5 3) 0 1000).state.sound_timer
      = 3 ∧
    (Chip8.execute ((Chip8.zeroed.poke16 0x200 0xF00A).set_timers 5 3)
      0 1000).state.last_timer_update_ms = 0 := by
  refine ⟨by decide, by decide, by decide, by decide, by decide, by decide⟩

/-! ## C10: loading a program -/

theorem reset_memory (s : Chip8) (a : Nat) :
    (Chip8.reset s).memory a = if a < 80 then Chip8.font.getD a 0 else 0 := by
  simp [Chip8.reset, Chip8.clear_screen, Chip8.font]

theorem reset_PC (s : Chip8) : (Chip8.reset s).PC = 0x200 := by
  simp [Chip8.reset, Chip8.clear_screen]

/-- Memory after `load_rom`: byte `k` of the program is at index 0x200 + k, whatever the
length of the program; the glyph table is at memory[0..79]; every other cell is 0.  For a
program of at most 3584 bytes all cells written lie inside the 4096-byte memory. -/
theorem load_rom_layout (s : Chip8) (rom : List Nat) (hbytes : ∀ b, b ∈ rom → b < 256) :
    (∀ k, k < rom.length → (Chip8.load_rom s rom).memory (0x200 + k) = rom.getD k 0) ∧
    (∀ a, a < 80 → (Chip8.load_rom s rom).memory a = Chip8.font.getD a 0) ∧
    (∀ a, 80 ≤ a → a < 0x200 → (Chip8.load_rom s rom).memory a = 0) ∧
    (∀ a, 0x200 + rom.length ≤ a → (Chip8.load_rom s rom).memory a = 0) := by
  refine ⟨?_, ?_, ?_, ?_⟩
  · intro k hk
    have hmem : rom.getD k 0 ∈ rom := by
      rw [List.getD_eq_getElem _ _ hk]
      exact List.getElem_mem _
    have hlt := hbytes _ hmem
    simp only [Chip8.load_rom, reset_PC]
    rw [if_pos ⟨by omega, by omega⟩]
    have hk' : 0x200 + k - 0x200 = k := by omega
    rw [hk']
    omega
  · intro a ha
    simp only [Chip8.load_rom, reset_PC, reset_memory]
    rw [if_neg (by omega), if_pos ha]
  · intro a h1 h2
    simp only [Chip8.load_rom, reset_PC, reset_memory]
    rw [if_neg (by omega), if_neg (by omega)]
  · intro a ha
    simp only [Chip8.load_rom, reset_PC, reset_memory]
    rw [if_neg (by omega), if_neg (by omega)]

/-- C10, evaluation at the failing input: a program of 3585 bytes 0xAA.  `load_rom` has no
error result (the source function is `noexcept` and performs no bounds check); byte 3584
of the file is stored at index 4096 = 0x200 + 3584, one past the last cell of the
4096-byte memory, which held 0 after `reset`. -/
theorem c10_load_rom_overflow :
    (List.replicate 3585 0xAA).length = 3585 ∧
    (Chip8.load_rom Chip8.zeroed (List.replicate 3585 0xAA)).memory (0x200 + 3584) = 0xAA ∧
    (Chip8.reset Chip8.zeroed).memory (0x200 + 3584) = 0 := by
  have hb : ∀ b, b ∈ List.replicate 3585 0xAA → b < 256 := by
    intro b hb
    rw [List.eq_of_mem_replicate hb]
    norm_num
  have hlen : (List.replicate 3585 0xAA).length = 3585 := List.length_replicate _ _
  have hcopy := (load_rom_layout Chip8.zeroed (List.replicate 3585 0xAA) hb).1 3584
    (by rw [hlen]; norm_num)
  have hget : (List.replicate 3585 0xAA).getD 3584 0 = 0xAA := by
    rw [List.getD_eq_getElem _ _ (by rw [hlen]; norm_num)]
    exact List.getElem_replicate _ _
  refine ⟨hlen, ?_, ?_⟩
  · rw [hcopy, hget]
  · rw [reset_memory]
    norm_num

/-! ## C11: reset -/

/-- C11: `reset` yields PC = 0x200, I = 0, SP = 0, all registers and stack slots 0,
memory[0..79] equal to the 80-byte glyph table and every other memory cell 0, all keys
unpressed, every pixel unset, both timers 0 and the dirty flag false; and `reset` is
idempotent. -/
theorem c11_reset (s : Chip8) :
    (Chip8.reset s).PC = 0x200 ∧ (Chip8.reset s).I = 0 ∧ (Chip8.reset s).SP = 0 ∧
    (∀ i, (Chip8.reset s).reg i = 0) ∧
    (∀ i, (Chip8.reset s).stack i = 0) ∧
    Chip8.font.length = 80 ∧
    (∀ a, a < 80 → (Chip8.reset s).memory a = Chip8.font.getD a 0) ∧
    (∀ a, 80 ≤ a → (Chip8.reset s).memory a = 0) ∧
    (∀ k, (Chip8.reset s).key k = false) ∧
    (∀ r c, (Chip8.reset s).screen r c = false) ∧
    (Chip8.reset s).delay_timer = 0 ∧ (Chip8.reset s).sound_timer = 0 ∧
    (Chip8.reset s).draw_pending = false ∧
    Chip8.reset (Chip8.reset s) = Chip8.reset s := by
  refine ⟨rfl, rfl, rfl, fun _ => rfl, fun _ => rfl, rfl, ?_, ?_, fun _ => rfl,
    fun _ _ => rfl, rfl, rfl, rfl, rfl⟩
  · intro a ha
    rw [reset_memory, if_pos ha]
  · intro a ha
    rw [reset_memory, if_neg (by omega)]

/-! ## C12: the key setters -/

/-- C12: for i <= 15, `key_down(i)` sets key i to pressed and `key_up(i)` sets it to
unpressed, leaving the other keys and every other member unchanged; for i >= 16 both
throw the out-of-range error and change no state. -/
theorem c12_key_setters (s : Chip8) (i : Nat) :
    (i ≤ 15 →
      (Chip8.key_down s i).error = none ∧
      (Chip8.key_down s i).state.key i = true ∧
      (∀ j, j ≠ i → (Chip8.key_down s i).state.key j = s.key j) ∧
      (Chip8.key_down s i).state = { s with key := (Chip8.key_down s i).state.key } ∧
      (Chip8.key_up s i).error = none ∧
      (Chip8.key_up s i).state.key i = false ∧
      (∀ j, j ≠ i → (Chip8.key_up s i).state.key j = s.key j) ∧
      (Chip8.key_up s i).state = { s with key := (Chip8.key_up s i).state.key }) ∧
    (16 ≤ i →
      Chip8.key_down s i = Outcome.threw Error.out_of_range s ∧
      Chip8.key_up s i = Outcome.threw Error.out_of_range s) := by
  constructor
  · intro hi
    have h16 : i < 16 := by omega
    simp only [Chip8.key_down, Chip8.key_up, if_pos h16, Outcome.error, Outcome.state]
    exact ⟨trivial, by simp, fun j hj => by simp [Function.update, hj], trivial, trivial,
      by simp, fun j hj => by simp [Function.update, hj], trivial⟩
  · intro hi
    have h16 : ¬ i < 16 := by omega
    simp [Chip8.key_down, Chip8.key_up, h16]

/-! ## C13: CLS -/

/-- C13: for 00E0, `execute` leaves every pixel unset and the dirty flag true, whatever
they were before, advances PC by 2 and changes no register, memory cell or stack slot. -/
theorem c13_clear_display (s : Chip8) (rnd : Nat) (t : Int) (h : s.word_at 0x00E0) :
    (Chip8.execute s rnd t).error = none ∧
    (∀ r c, (Chip8.execute s rnd t).state.screen r c = false) ∧
    (Chip8.execute s rnd t).state.draw_pending = true ∧
    (Chip8.execute s rnd t).state.PC = s.PC + 2 ∧
    (Chip8.execute s rnd t).state.reg = s.reg ∧
    (Chip8.execute s rnd t).state.memory = s.memory ∧
    (Chip8.execute s rnd t).state.stack = s.stack := by
  have hpc : s.PC ≤ 4094 := h.1
  have hfam : (0x00E0 &&& 0xF000 : Nat) = 0 := by decide
  have hlow : (0x00E0 &&& 0x00FF : Nat) = 0xE0 := by decide
  rw [execute_eq s _ rnd t h]
  simp [Chip8.dispatch, hfam, hlow, Chip8.after_switch, Outcome.error, Outcome.state,
    Chip8.advance, Chip8.clear_screen]
  omega

/-- C13 witness: CLS at 0x200 on a machine with the pixel (3, 5) set and the dirty flag
false. -/
theorem c13_clear_display_witness :
    ((Chip8.zeroed.poke16 0x200 0x00E0).set_pixel 3 5).word_at 0x00E0 ∧
    ((Chip8.zeroed.poke16 0x200 0x00E0).set_pixel 3 5).screen 3 5 = true ∧
    ((Chip8.zeroed.poke16 0x200 0x00E0).set_pixel 3 5).draw_pending = false ∧
    (∀ r c, (Chip8.execute ((Chip8.zeroed.poke16 0x200 0x00E0).set_pixel 3 5) 0 0).state.screen
      r c = false) ∧
    (Chip8.execute ((Chip8.zeroed.poke16 0x200 0x00E0).set_pixel 3 5) 0 0).state.draw_pending
      = true :=
  have h : ((Chip8.zeroed.poke16 0x200 0x00E0).set_pixel 3 5).word_at 0x00E0 := by decide
  have r := c13_clear_display ((Chip8.zeroed.poke16 0x200 0x00E0).set_pixel 3 5) 0 0 h
  ⟨h, by decide, by decide, r.2.1, r.2.2.1⟩

/-! ## C14: the stack bounds -/

/-- C14 as stated fails for RET: with the word 0x00EE at 0x200 and SP = 0, `execute`
throws the out-of-range error with PC unchanged, but `--SP` has already run and the
8-bit stack pointer is left at 255, not at 0. -/
theorem c14_counterexample :
    (Chip8.zeroed.poke16 0x200 0x00EE).word_at 0x00EE ∧
    (Chip8.zeroed.poke16 0x200 0x00EE).SP = 0 ∧
    (Chip8.execute (Chip8.zeroed.poke16 0x200 0x00EE) 0 0).error = some Error.out_of_range ∧
    (Chip8.execute (Chip8.zeroed.poke16 0x200 0x00EE) 0 0).state.PC = 0x200 ∧
    (Chip8.execute (Chip8.zeroed.poke16 0x200 0x00EE) 0 0).state.SP = 255 := by
  refine ⟨by decide, by decide, by decide, by decide, by decide⟩

/-- C14 (amended): for 2NNN with SP = 16, `execute` throws the out-of-range error and
leaves the stack, SP and PC unchanged; for 00EE with SP = 0, `execute` throws the
out-of-range error and leaves PC and the stack unchanged, the stack pointer having been
decremented to 255 before the bounds check. -/
theorem c14_stack_bounds (s : Chip8) (nnn rnd : Nat) (t : Int) :
    (nnn < 4096 → s.word_at (0x2000 + nnn) → s.SP = 16 →
      (Chip8.execute s rnd t).error = some Error.out_of_range ∧
      (Chip8.execute s rnd t).state.stack = s.stack ∧
      (Chip8.execute s rnd t).state.SP = s.SP ∧
      (Chip8.execute s rnd t).state.PC = s.PC) ∧
    (s.word_at 0x00EE → s.SP = 0 →
      (Chip8.execute s rnd t).error = some Error.out_of_range ∧
      (Chip8.execute s rnd t).state.PC = s.PC ∧
      (Chip8.execute s rnd t).state.stack = s.stack ∧
      (Chip8.execute s rnd t).state.SP = 255) := by
  constructor
  · intro hnnn h hsp
    have hfam : (0x2000 + nnn) &&& 0xF000 = 0x2000 := by rw [and_F000]; omega
    rw [execute_eq s _ rnd t h]
    simp [Chip8.dispatch, hfam, Chip8.at_check, hsp, Chip8.after_switch, Outcome.error,
      Outcome.state]
  · intro h hsp
    have hfam : (0x00EE &&& 0xF000 : Nat) = 0 := by decide
    have hlow : (0x00EE &&& 0x00FF : Nat) = 0xEE := by decide
    rw [execute_eq s _ rnd t h]
    simp [Chip8.dispatch, hfam, hlow, Chip8.at_check, hsp, Chip8.after_switch, Outcome.error,
      Outcome.state]

/-- C14 witness: CALL 0x300 (word 0x2300) at 0x200 with SP = 16. -/
theorem c14_stack_bounds_witness :
    ((Chip8.zeroed.poke16 0x200 0x2300).set_SP 16).word_at (0x2000 + 0x300) ∧
    (Chip8.execute ((Chip8.zeroed.poke16 0x200 0x2300).set_SP 16) 0 0).error
      = some Error.out_of_range ∧
    (Chip8.execute ((Chip8.zeroed.poke16 0x200 0x2300).set_SP 16) 0 0).state.SP = 16 ∧
    (Chip8.execute ((Chip8.zeroed.poke16 0x200 0x2300).set_SP 16) 0 0).state.PC = 0x200 :=
  have h : ((Chip8.zeroed.poke16 0x200 0x2300).set_SP 16).word_at (0x2000 + 0x300) := by
    decide
  have r := (c14_stack_bounds ((Chip8.zeroed.poke16 0x200 0x2300).set_SP 16) 0x300 0 0).1
    (by decide) h rfl
  ⟨h, r.1, r.2.2.1, r.2.2.2⟩

/-! ## C15: ADD I, Vx -/

/-- ADD I, Vx with x in 0..14: I, the flag and PC are as specified. -/
theorem add_index_spec (s : Chip8) (x rnd : Nat) (t : Int) (hx : x < 15)
    (h : s.word_at (0xF01E + 0x100 * x)) :
    (Chip8.execute s rnd t).error = none ∧
    (Chip8.execute s rnd t).state.I = (s.I + s.reg x) % 65536 ∧
    (Chip8.execute s rnd t).state.reg 0xF = (if s.I + s.reg x > 0xFFF then 1 else 0) ∧
    (Chip8.execute s rnd t).state.PC = s.PC + 2 := by
  have hpc : s.PC ≤ 4094 := h.1
  have hw : 0xF01E + 0x100 * x = 0xF000 + 0x100 * x + 0x1E := by omega
  have hx16 : x < 16 := by omega
  have hxF : x ≠ 15 := by omega
  have hlow := (decode_misc x 0x1E hx16 (by norm_num)).2.2
  rw [hw] at h
  rw [execute_misc s x 0x1E rnd t hx16 (by norm_num) h]
  simp [Chip8.misc, hlow, Chip8.at_check, hx16, Ctl.and_then, Chip8.after_switch,
    Outcome.error, Outcome.state, Chip8.advance, Function.update, hxF]
  omega

/-- C15, evaluation at the failing input: ADD I, VF (word 0xFF1E) with I = 0x100 and
VF = 0x20.  The flag 0 is stored in VF before VF is read as the addend, so I stays
0x100 + 0 = 0x100 instead of becoming 0x120. -/
theorem c15_add_index_flag_operand :
    (((Chip8.zeroed.poke16 0x200 0xFF1E).set_I 0x100).set_reg 0xF 0x20).word_at
      (0xF01E + 0x100 * 0xF) ∧
    (Chip8.execute (((Chip8.zeroed.poke16 0x200 0xFF1E).set_I 0x100).set_reg 0xF 0x20)
      0 0).error = none ∧
    (Chip8.execute (((Chip8.zeroed.poke16 0x200 0xFF1E).set_I 0x100).set_reg 0xF 0x20)
      0 0).state.reg 0xF = 0 ∧
    (Chip8.execute (((Chip8.zeroed.poke16 0x200 0xFF1E).set_I 0x100).set_reg 0xF 0x20)
      0 0).state.I = 0x100 ∧
    (0x100 + 0x20) % 65536 = 0x120 := by
  refine ⟨by decide, by decide, by decide, by decide, by decide⟩

/-! ## C16: BCD -/

/-- C16: for FX33 with I <= 4093 and v = Vx in 0..255, memory[I], memory[I+1],
memory[I+2] receive the hundreds, tens and ones digits of v; each is at most 9 and they
recompose to v; every other memory cell, every register and I are unchanged; PC advances
by 2. -/
theorem c16_bcd (s : Chip8) (x rnd : Nat) (t : Int) (hx : x < 16) (hI : s.I ≤ 4093)
    (hv : s.reg x < 256) (h : s.word_at (0xF033 + 0x100 * x)) :
    (Chip8.execute s rnd t).error = none ∧
    (Chip8.execute s rnd t).state.memory s.I = s.reg x / 100 ∧
    (Chip8.execute s rnd t).state.memory (s.I + 1) = s.reg x / 10 % 10 ∧
    (Chip8.execute s rnd t).state.memory (s.I + 2) = s.reg x % 10 ∧
    (Chip8.execute s rnd t).state.memory s.I ≤ 9 ∧
    (Chip8.execute s rnd t).state.memory (s.I + 1) ≤ 9 ∧
    (Chip8.execute s rnd t).state.memory (s.I + 2) ≤ 9 ∧
    100 * (Chip8.execute s rnd t).state.memory s.I +
      10 * (Chip8.execute s rnd t).state.memory (s.I + 1) +
      (Chip8.execute s rnd t).state.memory (s.I + 2) = s.reg x ∧
    (∀ a, a ≠ s.I → a ≠ s.I + 1 → a ≠ s.I + 2 →
      (Chip8.execute s rnd t).state.memory a = s.memory a) ∧
    (Chip8.execute s rnd t).state.reg = s.reg ∧
    (Chip8.execute s rnd t).state.I = s.I ∧
    (Chip8.execute s rnd t).state.PC = s.PC + 2 := by
  have hpc : s.PC ≤ 4094 := h.1
  have hw : 0xF033 + 0x100 * x = 0xF000 + 0x100 * x + 0x33 := by omega
  have hlow := (decode_misc x 0x33 hx (by norm_num)).2.2
  have hI0 : s.I < 4096 := by omega
  have hI1 : s.I + 1 < 4096 := by omega
  have hI2 : s.I + 2 < 4096 := by omega
  have hm0 : (Chip8.execute s rnd t).state.memory s.I = s.reg x / 100 := by
    rw [hw] at h
    rw [execute_misc s x 0x33 rnd t hx (by norm_num) h]
    simp [Chip8.misc, hlow, Chip8.at_check, hx, hI0, hI1, hI2, Ctl.and_then,
      Chip8.after_switch, Outcome.state, Chip8.advance, Function.update]
    omega
  have hm1 : (Chip8.execute s rnd t).state.memory (s.I + 1) = s.reg x / 10 % 10 := by
    rw [hw] at h
    rw [execute_misc s x 0x33 rnd t hx (by norm_num) h]
    simp [Chip8.misc, hlow, Chip8.at_check, hx, hI0, hI1, hI2, Ctl.and_then,
      Chip8.after_switch, Outcome.state, Chip8.advance, Function.update]
    omega
  have hm2 : (Chip8.execute s rnd t).state.memory (s.I + 2) = s.reg x % 10 := by
    rw [hw] at h
    rw [execute_misc s x 0x33 rnd t hx (by norm_num) h]
    simp [Chip8.misc, hlow, Chip8.at_check, hx, hI0, hI1, hI2, Ctl.and_then,
      Chip8.after_switch, Outcome.state, Chip8.advance, Function.update]
    omega
  refine ⟨?_, hm0, hm1, hm2, by rw [hm0]; omega, by rw [hm1]; omega, by rw [hm2]; omega,
    by rw [hm0, hm1, hm2]; omega, ?_, ?_, ?_, ?_⟩
  all_goals rw [hw] at h
  all_goals rw [execute_misc s x 0x33 rnd t hx (by norm_num) h]
  all_goals simp [Chip8.misc, hlow, Chip8.at_check, hx, hI0, hI1, hI2, Ctl.and_then,
      Chip8.after_switch, Outcome.error, Outcome.state, Chip8.advance]
  · intro a h0 h1 h2
    simp [Function.update, h0, h1, h2]
  · omega

/-- C16 witness: FX33 with x = 2 (word 0xF233), V2 = 254 and I = 0x300 stores 2, 5, 4. -/
theorem c16_bcd_witness :
    (((Chip8.zeroed.poke16 0x200 0xF233).set_reg 2 254).set_I 0x300).word_at
      (0xF033 + 0x100 * 2) ∧
    (Chip8.execute (((Chip8.zeroed.poke16 0x200 0xF233).set_reg 2 254).set_I 0x300)
      0 0).state.memory 0x300 = 254 / 100 ∧
    (Chip8.execute (((Chip8.zeroed.poke16 0x200 0xF233).set_reg 2 254).set_I 0x300)
      0 0).state.memory (0x300 + 1) = 254 / 10 % 10 ∧
    (Chip8.execute (((Chip8.zeroed.poke16 0x200 0xF233).set_reg 2 254).set_I 0x300)
      0 0).state.memory (0x300 + 2) = 254 % 10 :=
  have h : (((Chip8.zeroed.poke16 0x200 0xF233).set_reg 2 254).set_I 0x300).word_at
      (0xF033 + 0x100 * 2) := by decide
  have r := c16_bcd (((Chip8.zeroed.poke16 0x200 0xF233).set_reg 2 254).set_I 0x300) 2 0 0
    (by decide) (by decide) (by decide) h
  ⟨h, r.2.1, r.2.2.1, r.2.2.2.1⟩

/-! ## C17: store and load registers -/

theorem store_state_zero (s : Chip8) : s.store_state 0 = s := by
  have h : (fun a => if s.I ≤ a ∧ a < s.I then s.reg (a - s.I) else s.memory a)
      = s.memory := by
    funext a
    rw [if_neg (by omega)]
  simp [Chip8.store_state, h]

theorem load_state_zero (s : Chip8) : s.load_state 0 = s := by
  simp [Chip8.load_state]

/-- The FX55 loop, run from state `s`, ends normally in `store_state` at `x + 1`. -/
theorem store_loop (s : Chip8) (x : Nat) (hx : x < 16) (hI : s.I + x ≤ 4095) :
    Chip8.for_loop (fun i t =>
      Chip8.at_check t 16 i <| Chip8.at_check t 4096 (t.I + i) <|
      Ctl.next { t with memory := Function.update t.memory (t.I + i) (t.reg i) }) (x + 1) 0 s
      = Ctl.next (s.store_state (x + 1)) := by
  have hloop := for_loop_eq (fun i t =>
      Chip8.at_check t 16 i <| Chip8.at_check t 4096 (t.I + i) <|
      Ctl.next { t with memory := Function.update t.memory (t.I + i) (t.reg i) })
    (fun i => s.store_state i) (x + 1) 0 (fun i _ hi => by
      have hi16 : i < 16 := by omega
      have hmem : s.I + i < 4096 := by omega
      have hfun : Function.update
          (fun a => if s.I ≤ a ∧ a < s.I + i then s.reg (a - s.I) else s.memory a)
          (s.I + i) (s.reg i)
          = fun a => if s.I ≤ a ∧ a < s.I + (i + 1) then s.reg (a - s.I) else s.memory a := by
        funext a
        by_cases ha : a = s.I + i
        · subst ha
          simp
        · rw [Function.update_noteq ha]
          by_cases hin : s.I ≤ a ∧ a < s.I + i
          · rw [if_pos hin, if_pos ⟨hin.1, by omega⟩]
          · rw [if_neg hin, if_neg (by omega)]
      simp only [Chip8.store_state, Chip8.at_check, hi16, hmem, if_true, hfun])
  simpa [store_state_zero] using hloop

/-- The FX65 loop, run from state `s`, ends normally in `load_state` at `x + 1`. -/
theorem load_loop (s : Chip8) (x : Nat) (hx : x < 16) (hI : s.I + x ≤ 4095) :
    Chip8.for_loop (fun i t =>
      Chip8.at_check t 4096 (t.I + i) <| Chip8.at_check t 16 i <|
      Ctl.next { t with reg := Function.update t.reg i (t.memory (t.I + i)) }) (x + 1) 0 s
      = Ctl.next (s.load_state (x + 1)) := by
  have hloop := for_loop_eq (fun i t =>
      Chip8.at_check t 4096 (t.I + i) <| Chip8.at_check t 16 i <|
      Ctl.next { t with reg := Function.update t.reg i (t.memory (t.I + i)) })
    (fun i => s.load_state i) (x + 1) 0 (fun i _ hi => by
      have hi16 : i < 16 := by omega
      have hmem : s.I + i < 4096 := by omega
      have hfun : Function.update
          (fun j => if j < i then s.memory (s.I + j) else s.reg j) i (s.memory (s.I + i))
          = fun j => if j < i + 1 then s.memory (s.I + j) else s.reg j := by
        funext j
        by_cases hj : j = i
        · subst hj
          simp
        · rw [Function.update_noteq hj]
          by_cases hlt : j < i
          · rw [if_pos hlt, if_pos (by omega)]
          · rw [if_neg hlt, if_neg (by omega)]
      simp only [Chip8.load_state, Chip8.at_check, hi16, hmem, if_true, hfun])
  simpa [load_state_zero] using hloop

/-- C17: with I + x <= 4095, FX55 stores V0..Vx at memory[I..I+x] and changes no other
memory cell, no register and not I; FX65 loads V0..Vx from memory[I..I+x] and changes no
other register, no memory cell and not I.  In both cases PC advances by 2. -/
theorem c17_store_load (s : Chip8) (x rnd : Nat) (t : Int) (hx : x < 16)
    (hI : s.I + x ≤ 4095) :
    (s.word_at (0xF055 + 0x100 * x) →
      (Chip8.execute s rnd t).error = none ∧
      (∀ i, i ≤ x → (Chip8.execute s rnd t).state.memory (s.I + i) = s.reg i) ∧
      (∀ a, a < s.I ∨ s.I + x < a → (Chip8.execute s rnd t).state.memory a = s.memory a) ∧
      (Chip8.execute s rnd t).state.reg = s.reg ∧
      (Chip8.execute s rnd t).state.I = s.I ∧
      (Chip8.execute s rnd t).state.PC = s.PC + 2) ∧
    (s.word_at (0xF065 + 0x100 * x) →
      (Chip8.execute s rnd t).error = none ∧
      (∀ i, i ≤ x → (Chip8.execute s rnd t).state.reg i = s.memory (s.I + i)) ∧
      (∀ i, x < i → (Chip8.execute s rnd t).state.reg i = s.reg i) ∧
      (Chip8.execute s rnd t).state.memory = s.memory ∧
      (Chip8.execute s rnd t).state.I = s.I ∧
      (Chip8.execute s rnd t).state.PC = s.PC + 2) := by
  constructor
  · intro h
    have hpc : s.PC ≤ 4094 := h.1
    have hw : 0xF055 + 0x100 * x = 0xF000 + 0x100 * x + 0x55 := by omega
    have hlow := (decode_misc x 0x55 hx (by norm_num)).2.2
    rw [hw] at h
    have hmisc : Chip8.misc { s with opcode := 0xF000 + 0x100 * x + 0x55 } x =
        Ctl.next (Chip8.store_state { s with opcode := 0xF000 + 0x100 * x + 0x55 } (x + 1)) := by
      unfold Chip8.misc
      simp only [hlow]
      norm_num
      exact store_loop _ x hx hI
    rw [execute_misc s x 0x55 rnd t hx (by norm_num) h, hmisc]
    simp only [Ctl.and_then, Chip8.after_switch, Outcome.error, Outcome.state,
      update_timers_memory, update_timers_reg, update_timers_I, update_timers_PC,
      Chip8.advance, Chip8.store_state]
    refine ⟨trivial, fun i hi => ?_, fun a ha => ?_, trivial, trivial, by omega⟩
    · rw [if_pos ⟨by omega, by omega⟩]
      congr 1
      omega
    · rw [if_neg (by omega)]
  · intro h
    have hpc : s.PC ≤ 4094 := h.1
    have hw : 0xF065 + 0x100 * x = 0xF000 + 0x100 * x + 0x65 := by omega
    have hlow := (decode_misc x 0x65 hx (by norm_num)).2.2
    rw [hw] at h
    have hmisc : Chip8.misc { s with opcode := 0xF000 + 0x100 * x + 0x65 } x =
        Ctl.next (Chip8.load_state { s with opcode := 0xF000 + 0x100 * x + 0x65 } (x + 1)) := by
      unfold Chip8.misc
      simp only [hlow]
      norm_num
      exact load_loop _ x hx hI
    rw [execute_misc s x 0x65 rnd t hx (by norm_num) h, hmisc]
    simp only [Ctl.and_then, Chip8.after_switch, Outcome.error, Outcome.state,
      update_timers_memory, update_timers_reg, update_timers_I, update_timers_PC,
      Chip8.advance, Chip8.load_state]
    refine ⟨trivial, fun i hi => ?_, fun i hi => ?_, trivial, trivial, by omega⟩
    · rw [if_pos (by omega)]
    · rw [if_neg (by omega)]

/-- C17 witness: F255 stores V0 = 7, V1 = 8, V2 = 9 at memory[0x300..0x302]; F265 loads
V0..V2 from memory[0x300..0x302] = 0xAB, 0xCD, 0. -/
theorem c17_store_load_witness :
    (((((Chip8.zeroed.poke16 0x200 0xF255).set_I 0x300).set_reg 0 7).set_reg 1 8).set_reg 2
      9).word_at (0xF055 + 0x100 * 2) ∧
    (∀ i, i ≤ 2 →
      (Chip8.execute (((((Chip8.zeroed.poke16 0x200 0xF255).set_I 0x300).set_reg 0 7).set_reg 1
        8).set_reg 2 9) 0 0).state.memory
        ((((((Chip8.zeroed.poke16 0x200 0xF255).set_I 0x300).set_reg 0 7).set_reg 1 8).set_reg 2
          9).I + i) =
      (((((Chip8.zeroed.poke16 0x200 0xF255).set_I 0x300).set_reg 0 7).set_reg 1 8).set_reg 2
        9).reg i) ∧
    (Chip8.execute (((((Chip8.zeroed.poke16 0x200 0xF255).set_I 0x300).set_reg 0 7).set_reg 1
      8).set_reg 2 9) 0 0).state.memory 0x302 = 9 ∧
    (((Chip8.zeroed.poke16 0x200 0xF265).poke16 0x300 0xABCD).set_I 0x300).word_at
      (0xF065 + 0x100 * 2) ∧
    (∀ i, i ≤ 2 →
      (Chip8.execute (((Chip8.zeroed.poke16 0x200 0xF265).poke16 0x300 0xABCD).set_I 0x300)
        0 0).state.reg i =
      (((Chip8.zeroed.poke16 0x200 0xF265).poke16 0x300 0xABCD).set_I 0x300).memory
        ((((Chip8.zeroed.poke16 0x200 0xF265).poke16 0x300 0xABCD).set_I 0x300).I + i)) ∧
    (Chip8.execute (((Chip8.zeroed.poke16 0x200 0xF265).poke16 0x300 0xABCD).set_I 0x300)
      0 0).state.reg 1 = 0xCD :=
  have h1 : (((((Chip8.zeroed.poke16 0x200 0xF255).set_I 0x300).set_reg 0 7).set_reg 1
      8).set_reg 2 9).word_at (0xF055 + 0x100 * 2) := by decide
  have h2 : (((Chip8.zeroed.poke16 0x200 0xF265).poke16 0x300 0xABCD).set_I 0x300).word_at
      (0xF065 + 0x100 * 2) := by decide
  have r1 := (c17_store_load (((((Chip8.zeroed.poke16 0x200 0xF255).set_I 0x300).set_reg 0
    7).set_reg 1 8).set_reg 2 9) 2 0 0 (by decide) (by decide)).1 h1
  have r2 := (c17_store_load (((Chip8.zeroed.poke16 0x200 0xF265).poke16 0x300 0xABCD).set_I
    0x300) 2 0 0 (by decide) (by decide)).2 h2
  ⟨h1, r1.2.1, by decide, h2, r2.2.1, by decide⟩

/-! ## C19: drawing twice restores the framebuffer -/

theorem xor_upto_congr (f g : Nat → Bool) (k : Nat) (h : ∀ i, i < k → f i = g i) :
    xor_upto f k = xor_upto g k := by
  induction k with
  | zero => rfl
  | succ k ih =>
    simp [xor_upto, ih (fun i hi => h i (by omega)), h k (by omega)]

/-- Applying the same sprite twice at the same place gives back the framebuffer. -/
theorem screen_after_twice (scr0 : Nat → Nat → Bool) (mem mem2 : Nat → Nat)
    (I I2 vx vy p : Nat) (hbits : ∀ q, q < p → sprite_bit mem2 I2 q = sprite_bit mem I q) :
    screen_after (screen_after scr0 mem I vx vy p) mem2 I2 vx vy p = scr0 := by
  funext r c
  unfold screen_after
  rw [xor_upto_congr (fun q => hit mem2 I2 vx vy q r c) (fun q => hit mem I vx vy q r c) p
    (fun q hq => by simp [hit, hbits q hq])]
  simp

/-- DXYN executed on the framebuffer left by a first DXYN, with the same Vx, Vy, I and
sprite bytes, restores the framebuffer the first one started from. -/
theorem draw_twice (s : Chip8) (x y n rnd : Nat) (t : Int) (hx : x < 15) (hy : y < 15)
    (hn : n < 16) (hI : s.I + n - 1 ≤ 4095)
    (h : s.word_at (0xD000 + 0x100 * x + 0x10 * y + n))
    (s2 : Chip8) (rnd2 : Nat) (t2 : Int)
    (h2 : s2.word_at (0xD000 + 0x100 * x + 0x10 * y + n))
    (hscr : s2.screen = (Chip8.execute s rnd t).state.screen)
    (hrx : s2.reg x = s.reg x) (hry : s2.reg y = s.reg y) (hI2 : s2.I = s.I)
    (hmem : ∀ row, row < n → s2.memory (s2.I + row) = s.memory (s.I + row)) :
    (Chip8.execute s2 rnd2 t2).error = none ∧
    (Chip8.execute s2 rnd2 t2).state.screen = s.screen := by
  have hxF : x ≠ 15 := by omega
  have hyF : y ≠ 15 := by omega
  have hrows : ∀ row, row < n → s.I + row < 4096 := fun row hrow => by omega
  have hrows2 : ∀ row, row < n → s2.I + row < 4096 := fun row hrow => by
    rw [hI2]; exact hrows row hrow
  have e1 := execute_draw s x y n rnd t (by omega) (by omega) hn h hrows (Or.inl ⟨hxF, hyF⟩)
  have e2 := execute_draw s2 x y n rnd2 t2 (by omega) (by omega) hn h2 hrows2
    (Or.inl ⟨hxF, hyF⟩)
  have hscr1 : s2.screen = screen_after s.screen s.memory s.I (s.reg x) (s.reg y) (8 * n) := by
    rw [hscr, e1]
    simp [Outcome.state, Chip8.draw_result, Chip8.advance, Chip8.draw_state, Chip8.set_reg,
      Function.update, hxF, hyF]
  refine ⟨by rw [e2]; rfl, ?_⟩
  rw [e2]
  simp only [Outcome.state, update_timers_screen, Chip8.draw_result, Chip8.advance,
    Chip8.draw_state, Chip8.set_reg, Function.update, hxF, hyF, dite_false, hrx, hry, hscr1]
  apply screen_after_twice
  intro q hq
  unfold sprite_bit
  rw [hmem (q / 8) (by omega)]

/-- C19: for DXYN with x, y in 0..14 and the sprite rows inside memory, executing the
instruction, resetting PC to it and executing it again restores the framebuffer to its
content before the first draw. -/
theorem c19_draw_twice (s : Chip8) (x y n rnd rnd2 : Nat) (t t2 : Int) (hx : x < 15)
    (hy : y < 15) (hn : n < 16) (hI : s.I + n - 1 ≤ 4095)
    (h : s.word_at (0xD000 + 0x100 * x + 0x10 * y + n)) :
    (Chip8.execute s rnd t).error = none ∧
    (Chip8.execute ((Chip8.execute s rnd t).state.set_PC s.PC) rnd2 t2).error = none ∧
    (Chip8.execute ((Chip8.execute s rnd t).state.set_PC s.PC) rnd2 t2).state.screen
      = s.screen := by
  have hxF : x ≠ 15 := by omega
  have hyF : y ≠ 15 := by omega
  have hrows : ∀ row, row < n → s.I + row < 4096 := fun row hrow => by omega
  have e1 := execute_draw s x y n rnd t (by omega) (by omega) hn h hrows (Or.inl ⟨hxF, hyF⟩)
  have hregs : ∀ i, i ≠ 15 → ((Chip8.execute s rnd t).state.set_PC s.PC).reg i = s.reg i := by
    intro i hi
    rw [e1]
    simp only [Outcome.state, Chip8.set_PC, update_timers_reg, Chip8.draw_result,
      Chip8.advance, Chip8.draw_state, Chip8.set_reg]
    rw [reg_after_stable _ _ _ _ _ _ n (8 * n) i (le_refl _) (Or.inl hi)]
    simp [Function.update, hi]
  have hmem : ((Chip8.execute s rnd t).state.set_PC s.PC).memory = s.memory := by
    rw [e1]
    simp [Outcome.state, Chip8.set_PC, Chip8.draw_result, Chip8.advance, Chip8.draw_state,
      Chip8.set_reg]
  have hI2 : ((Chip8.execute s rnd t).state.set_PC s.PC).I = s.I := by
    rw [e1]
    simp [Outcome.state, Chip8.set_PC, Chip8.draw_result, Chip8.advance, Chip8.draw_state,
      Chip8.set_reg]
  have hPC : ((Chip8.execute s rnd t).state.set_PC s.PC).PC = s.PC := rfl
  have hw2 : ((Chip8.execute s rnd t).state.set_PC s.PC).word_at
      (0xD000 + 0x100 * x + 0x10 * y + n) := by
    unfold Chip8.word_at
    rw [hmem, hPC]
    exact h
  refine ⟨by rw [e1]; rfl, ?_⟩
  exact draw_twice s x y n rnd t hx hy hn hI h _ rnd2 t2 hw2 rfl (hregs x hxF) (hregs y hyF)
    hI2 (fun row _ => by rw [hmem, hI2])

/-- C19 witness: glyph 0 drawn at (0, 0) on a framebuffer that already has the pixel
(0, 0) set, then drawn again. -/
theorem c19_draw_twice_witness :
    (Chip8.glyph0_draw.set_pixel 0 0).word_at (0xD000 + 0x100 * 0 + 0x10 * 1 + 5) ∧
    (Chip8.execute (Chip8.glyph0_draw.set_pixel 0 0) 0 0).state.screen 0 0 = false ∧
    (Chip8.execute (Chip8.glyph0_draw.set_pixel 0 0) 0 0).state.screen 0 1 = true ∧
    (Chip8.execute ((Chip8.execute (Chip8.glyph0_draw.set_pixel 0 0) 0 0).state.set_PC
      (Chip8.glyph0_draw.set_pixel 0 0).PC) 0 0).state.screen
      = (Chip8.glyph0_draw.set_pixel 0 0).screen :=
  have h : (Chip8.glyph0_draw.set_pixel 0 0).word_at (0xD000 + 0x100 * 0 + 0x10 * 1 + 5) := by
    decide
  have r := c19_draw_twice (Chip8.glyph0_draw.set_pixel 0 0) 0 1 5 0 0 0 0 (by decide)
    (by decide) (by decide) (by decide) h
  ⟨h, by decide, by decide, r.2.2⟩

/-! ## C20: FX0A takes the highest pressed key -/

theorem highest_below_eq (key : Nat → Bool) (n k : Nat) (hk : k < n) (hdown : key k = true)
    (hup : ∀ j, k < j → j < n → key j = false) : highest_below key n = some k := by
  induction n with
  | zero => omega
  | succ n ih =>
    unfold highest_below
    by_cases hkn : k = n
    · subst hkn
      simp [hdown]
    · rw [hup n (by omega) (by omega)]
      simpa using ih (by omega) (fun j h1 h2 => hup j h1 (by omega))

/-- The key scan of FX0A, run from a state `s`, ends normally in `scan_state` at 16. -/
theorem scan_loop (s : Chip8) (x : Nat) (hx : x < 16) :
    Chip8.for_loop (fun i t =>
        Chip8.at_check t 16 i <|
        if t.key i then
          Chip8.at_check t 16 x <|
          Ctl.next { t with reg := Function.update t.reg x (i % 256), wait_for_key := false }
        else Ctl.next t) 16 0 s = Ctl.next (s.scan_state x 16) := by
  have hloop := for_loop_eq (fun i t =>
        Chip8.at_check t 16 i <|
        if t.key i then
          Chip8.at_check t 16 x <|
          Ctl.next { t with reg := Function.update t.reg x (i % 256), wait_for_key := false }
        else Ctl.next t)
    (fun i => s.scan_state x i) 16 0 (fun i _ hi => by
      have hi16 : i < 16 := by omega
      have hmod : i % 256 = i := by omega
      unfold Chip8.scan_state
      cases hb : highest_below s.key i <;> cases hki : s.key i <;>
        simp [highest_below, hb, hki, Chip8.at_check, hi16, hx, hmod])
  simpa [Chip8.scan_state, highest_below] using hloop

/-- FX0A when k is the highest pressed key index: `execute` stores k in Vx, leaves every
other register unchanged and advances PC by 2. -/
theorem wait_key_highest (s : Chip8) (x k rnd : Nat) (t : Int) (hx : x < 16)
    (h : s.word_at (0xF00A + 0x100 * x)) (hk : k < 16) (hdown : s.key k = true)
    (hhigh : ∀ j, j < 16 → k < j → s.key j = false) :
    (Chip8.execute s rnd t).error = none ∧
    (Chip8.execute s rnd t).state.reg x = k ∧
    (∀ i, i ≠ x → (Chip8.execute s rnd t).state.reg i = s.reg i) ∧
    (Chip8.execute s rnd t).state.PC = s.PC + 2 := by
  have hpc : s.PC ≤ 4094 := h.1
  have hw : 0xF00A + 0x100 * x = 0xF000 + 0x100 * x + 0x0A := by omega
  have hlow := (decode_misc x 0x0A hx (by norm_num)).2.2
  rw [hw] at h
  rw [execute_misc s x 0x0A rnd t hx (by norm_num) h, misc_wait_key _ x hlow, scan_loop _ x hx]
  have hb := highest_below_eq s.key 16 k hk hdown (fun j h1 h2 => hhigh j h2 h1)
  simp only [Chip8.scan_state, hb, Ctl.and_then, Chip8.after_switch, Outcome.error,
    Outcome.state, update_timers_reg, update_timers_PC, Chip8.advance]
  refine ⟨by simp, by simp, fun i hi => by simp [Function.update, hi], by simp; omega⟩

/-- Among 16 keys of which at least one is pressed there is a highest pressed one. -/
theorem exists_highest_key (key : Nat → Bool) (h : ∃ j, j < 16 ∧ key j = true) :
    ∃ k, k < 16 ∧ key k = true ∧ ∀ j, j < 16 → k < j → key j = false := by
  obtain ⟨j, hj, hkj⟩ := h
  refine ⟨Nat.findGreatest (fun i => key i = true) 15, ?_, ?_, ?_⟩
  · have hle := Nat.findGreatest_le (P := fun i => key i = true) 15
    omega
  · exact Nat.findGreatest_spec (P := fun i => key i = true) (m := j) (by omega) hkj
  · intro i hi hlt
    by_contra hne
    have hle := Nat.le_findGreatest (P := fun i => key i = true) (by omega : i ≤ 15)
      (by simpa using hne)
    omega

/-- C20: for FX0A with at least one key pressed, `execute` stores in Vx the highest index
k in 0..15 whose key is pressed, leaves every other register unchanged and advances PC by
2. -/
theorem c20_highest_key (s : Chip8) (x rnd : Nat) (t : Int) (hx : x < 16)
    (h : s.word_at (0xF00A + 0x100 * x)) (hany : ∃ j, j < 16 ∧ s.key j = true) :
    ∃ k, k < 16 ∧ s.key k = true ∧ (∀ j, j < 16 → k < j → s.key j = false) ∧
      (Chip8.execute s rnd t).error = none ∧
      (Chip8.execute s rnd t).state.reg x = k ∧
      (∀ i, i ≠ x → (Chip8.execute s rnd t).state.reg i = s.reg i) ∧
      (Chip8.execute s rnd t).state.PC = s.PC + 2 := by
  obtain ⟨k, hk, hdown, hhigh⟩ := exists_highest_key s.key hany
  exact ⟨k, hk, hdown, hhigh, wait_key_highest s x k rnd t hx h hk hdown hhigh⟩

/-- C20 witness: FX0A with x = 3 and keys 2, 9 and 5 pressed stores 9. -/
theorem c20_highest_key_witness :
    ((((Chip8.zeroed.poke16 0x200 0xF30A).press 2).press 9).press 5).word_at
      (0xF00A + 0x100 * 3) ∧
    (∃ k, k < 16 ∧ ((((Chip8.zeroed.poke16 0x200 0xF30A).press 2).press 9).press 5).key k = true ∧
      (∀ j, j < 16 → k < j →
        ((((Chip8.zeroed.poke16 0x200 0xF30A).press 2).press 9).press 5).key j = false) ∧
      (Chip8.execute ((((Chip8.zeroed.poke16 0x200 0xF30A).press 2).press 9).press 5)
        0 0).state.reg 3 = k) ∧
    (Chip8.execute ((((Chip8.zeroed.poke16 0x200 0xF30A).press 2).press 9).press 5)
      0 0).state.reg 3 = 9 ∧
    (Chip8.execute ((((Chip8.zeroed.poke16 0x200 0xF30A).press 2).press 9).press 5)
      0 0).state.PC = 0x200 + 2 :=
  have h : ((((Chip8.zeroed.poke16 0x200 0xF30A).press 2).press 9).press 5).word_at
      (0xF00A + 0x100 * 3) := by decide
  have r := c20_highest_key ((((Chip8.zeroed.poke16 0x200 0xF30A).press 2).press 9).press 5)
    3 0 0 (by decide) h ⟨2, by decide, by decide⟩
  ⟨h, match r with
      | ⟨k, hk, hd, hh, _, hr, _⟩ => ⟨k, hk, hd, hh, hr⟩,
    by decide, by decide⟩

/-! ## C18: the dirty flag -/

theorem at_check_inv (P : Chip8 → Prop) (s : Chip8) (n i : Nat) (k : Ctl) (hs : P s)
    (hk : P k.state) : P (Chip8.at_check s n i k).state := by
  unfold Chip8.at_check
  split
  · exact hk
  · exact hs

theorem and_then_inv (P : Chip8 → Prop) (r : Ctl) (f : Chip8 → Ctl) (hr : P r.state)
    (hf : ∀ s1, P s1 → P (f s1).state) : P (r.and_then f).state := by
  cases r with
  | next s => exact hf s hr
  | returned s => exact hr
  | threw e s => exact hr

theorem for_loop_inv (P : Chip8 → Prop) (body : Nat → Chip8 → Ctl)
    (hb : ∀ i t, P t → P (body i t).state) (n i : Nat) (s : Chip8) (hs : P s) :
    P (Chip8.for_loop body n i s).state := by
  induction n generalizing i s with
  | zero => exact hs
  | succ k ih =>
    unfold Chip8.for_loop
    exact and_then_inv P _ _ (hb i s hs) (fun s1 h1 => ih (i + 1) s1 h1)

theorem same_display_refl (s : Chip8) : s.same_display s := ⟨rfl, rfl⟩

theorem same_display_ok (s0 : Chip8) (r : Ctl) (h : s0.same_display r.state) :
    s0.display_ok r :=
  ⟨Or.inr h.2, fun _ => Or.inr h.1⟩

/-- The register-register ALU switch touches neither the framebuffer nor the dirty
flag. -/
theorem alu_display (s : Chip8) (x y : Nat) : s.same_display (Chip8.alu s x y).state := by
  by_cases h : s.opcode % 16 ≤ 7 ∨ s.opcode % 16 = 14
  · have hc : s.opcode % 16 = 0 ∨ s.opcode % 16 = 1 ∨ s.opcode % 16 = 2 ∨ s.opcode % 16 = 3 ∨
        s.opcode % 16 = 4 ∨ s.opcode % 16 = 5 ∨ s.opcode % 16 = 6 ∨ s.opcode % 16 = 7 ∨
        s.opcode % 16 = 14 := by omega
    unfold Chip8.alu
    rw [and_000F]
    rcases hc with hc | hc | hc | hc | hc | hc | hc | hc | hc <;>
    · simp only [hc]
      norm_num
      repeat (first
        | exact ⟨rfl, rfl⟩
        | apply at_check_inv (Chip8.same_display s))
  · rw [alu_unknown s x y h]
    exact ⟨rfl, rfl⟩

/-- The inner switch of family F touches neither the framebuffer nor the dirty flag. -/
theorem misc_display (s : Chip8) (x : Nat) : s.same_display (Chip8.misc s x).state := by
  by_cases hc : s.opcode % 256 = 0x07 ∨ s.opcode % 256 = 0x0A ∨ s.opcode % 256 = 0x15 ∨
      s.opcode % 256 = 0x18 ∨ s.opcode % 256 = 0x1E ∨ s.opcode % 256 = 0x29 ∨
      s.opcode % 256 = 0x33 ∨ s.opcode % 256 = 0x55 ∨ s.opcode % 256 = 0x65
  · unfold Chip8.misc
    rw [and_00FF]
    rcases hc with hc | hc | hc | hc | hc | hc | hc | hc | hc <;>
    · simp only [hc]
      norm_num
      repeat (first
        | exact ⟨rfl, rfl⟩
        | apply at_check_inv (Chip8.same_display s)
        | (apply and_then_inv (Chip8.same_display s); rotate_left;
            (intro s2 h2; split <;> exact h2))
        | (apply for_loop_inv (Chip8.same_display s); intro i u hu)
        | assumption
        | split)
  · rw [misc_unknown s x (by omega)]
    exact ⟨rfl, rfl⟩

theorem mark_erased_pending (s0 : Chip8) (p : Bool) (dx dy : Nat) (u : Chip8)
    (hu : s0.same_pending u) : s0.same_pending (Chip8.mark_erased p dx dy u).state := by
  unfold Chip8.mark_erased
  split
  · refine at_check_inv (Chip8.same_pending s0) _ _ _ _ hu ?_
    split
    · exact hu
    · exact hu
  · exact hu

/-- One DRW pixel step leaves the dirty flag alone. -/
theorem draw_pixel_pending (s0 : Chip8) (x y row col : Nat) (u : Chip8)
    (hu : s0.same_pending u) : s0.same_pending (Chip8.draw_pixel x y row col u).state := by
  unfold Chip8.draw_pixel
  refine at_check_inv (Chip8.same_pending s0) _ _ _ _ hu
    (at_check_inv (Chip8.same_pending s0) _ _ _ _ hu
      (at_check_inv (Chip8.same_pending s0) _ _ _ _ hu
        (at_check_inv (Chip8.same_pending s0) _ _ _ _ hu ?_)))
  split
  · exact at_check_inv (Chip8.same_pending s0) _ _ _ _ hu
      (at_check_inv (Chip8.same_pending s0) _ _ _ _ hu (mark_erased_pending s0 _ _ _ _ hu))
  · exact mark_erased_pending s0 _ _ _ _ hu

theorem at_check_q (Q : Ctl → Prop) (s : Chip8) (n i : Nat) (k : Ctl)
    (ht : Q (Ctl.threw Error.out_of_range s)) (hk : Q k) : Q (Chip8.at_check s n i k) := by
  unfold Chip8.at_check
  split
  · exact hk
  · exact ht

theorem and_then_q (Q : Ctl → Prop) (r : Ctl) (f : Chip8 → Ctl) (hr : Q r)
    (hf : ∀ s1, Q (f s1)) : Q (r.and_then f) := by
  cases r with
  | next s => exact hf s
  | returned s => exact hr
  | threw e s => exact hr

theorem for_loop_q (Q : Ctl → Prop) (body : Nat → Chip8 → Ctl) (hb : ∀ i t, Q (body i t))
    (hn : ∀ t, Q (Ctl.next t)) (n i : Nat) (s : Chip8) : Q (Chip8.for_loop body n i s) := by
  induction n generalizing i s with
  | zero => exact hn s
  | succ k ih =>
    unfold Chip8.for_loop
    exact and_then_q Q _ _ (hb i s) (fun s1 => ih (i + 1) s1)

theorem threw_ne_returned (e : Error) (s s1 : Chip8) : Ctl.threw e s ≠ Ctl.returned s1 := by
  intro h
  cases h

theorem next_ne_returned (s s1 : Chip8) : Ctl.next s ≠ Ctl.returned s1 := by
  intro h
  cases h

theorem mark_erased_not_returned (p : Bool) (dx dy : Nat) (u : Chip8) :
    ∀ s1, Chip8.mark_erased p dx dy u ≠ Ctl.returned s1 := by
  unfold Chip8.mark_erased
  split
  · refine at_check_q (fun r => ∀ s1, r ≠ Ctl.returned s1) _ _ _ _
      (fun s1 => threw_ne_returned _ _ s1) ?_
    split
    · exact fun s1 => next_ne_returned _ s1
    · exact fun s1 => next_ne_returned _ s1
  · exact fun s1 => next_ne_returned _ s1

/-- The DRW pixel step never leaves through `return`. -/
theorem draw_pixel_not_returned (x y row col : Nat) (u : Chip8) :
    ∀ s1, Chip8.draw_pixel x y row col u ≠ Ctl.returned s1 := by
  unfold Chip8.draw_pixel
  refine at_check_q (fun r => ∀ s1, r ≠ Ctl.returned s1) _ _ _ _
      (fun s1 => threw_ne_returned _ _ s1)
    (at_check_q (fun r => ∀ s1, r ≠ Ctl.returned s1) _ _ _ _
      (fun s1 => threw_ne_returned _ _ s1)
      (at_check_q (fun r => ∀ s1, r ≠ Ctl.returned s1) _ _ _ _
        (fun s1 => threw_ne_returned _ _ s1)
        (at_check_q (fun r => ∀ s1, r ≠ Ctl.returned s1) _ _ _ _
          (fun s1 => threw_ne_returned _ _ s1) ?_)))
  split
  · exact at_check_q (fun r => ∀ s1, r ≠ Ctl.returned s1) _ _ _ _
      (fun s1 => threw_ne_returned _ _ s1)
      (at_check_q (fun r => ∀ s1, r ≠ Ctl.returned s1) _ _ _ _
        (fun s1 => threw_ne_returned _ _ s1) (mark_erased_not_returned _ _ _ _))
  · exact mark_erased_not_returned _ _ _ _

theorem draw_loops_not_returned (x y n : Nat) (s : Chip8) :
    ∀ s1, Chip8.for_loop
      (fun row t => Chip8.for_loop (fun col u => Chip8.draw_pixel x y row col u) 8 0 t) n 0 s
      ≠ Ctl.returned s1 :=
  for_loop_q (fun r => ∀ s1, r ≠ Ctl.returned s1) _
    (fun row t => for_loop_q (fun r => ∀ s1, r ≠ Ctl.returned s1) _
      (fun col u => draw_pixel_not_returned x y row col u)
      (fun u s1 => next_ne_returned u s1) 8 0 t)
    (fun u s1 => next_ne_returned u s1) n 0 s

/-- DRW: unless it throws, the dirty flag is set at the end; if it throws, the flag is as
before. -/
theorem draw_display (s : Chip8) (x y n : Nat) : s.display_ok (Chip8.draw s x y n) := by
  unfold Chip8.draw
  have hloops := for_loop_inv (Chip8.same_pending s)
    (fun row t => Chip8.for_loop (fun col u => Chip8.draw_pixel x y row col u) 8 0 t)
    (fun row t ht => for_loop_inv (Chip8.same_pending s) _
      (fun col u hu => draw_pixel_pending s x y row col u hu) 8 0 t ht)
    n 0 { s with reg := Function.update s.reg 0xF 0 } rfl
  have hnr := draw_loops_not_returned x y n { s with reg := Function.update s.reg 0xF 0 }
  revert hloops hnr
  simp only []
  cases Chip8.for_loop
    (fun row t => Chip8.for_loop (fun col u => Chip8.draw_pixel x y row col u) 8 0 t) n 0
    { s with reg := Function.update s.reg 0xF 0 } with
  | next s2 =>
    intro _ _
    exact ⟨Or.inl rfl, fun _ => Or.inl rfl⟩
  | returned s2 =>
    intro _ hnr
    exact absurd rfl (hnr s2)
  | threw e s2 =>
    intro hl _
    exact ⟨Or.inr hl, fun hnt => absurd trivial hnt⟩

/-- Every instruction respects the dirty-flag discipline. -/
theorem dispatch_display (s : Chip8) (rnd : Nat) : s.display_ok (Chip8.dispatch s rnd) := by
  have hfam := and_F000 s.opcode
  have hf : s.opcode / 4096 % 16 < 16 := Nat.mod_lt _ (by norm_num)
  generalize s.opcode / 4096 % 16 = f at hfam hf
  unfold Chip8.dispatch
  simp only [hfam, and_00FF]
  interval_cases f
  · -- family 0
    norm_num
    by_cases h1 : s.opcode % 256 = 224
    · simp only [h1, if_true]
      exact ⟨Or.inl rfl, fun _ => Or.inl rfl⟩
    · simp only [h1, if_false]
      apply same_display_ok
      repeat (first
        | exact ⟨rfl, rfl⟩
        | apply at_check_inv (Chip8.same_display s)
        | split)
  · norm_num; exact same_display_ok _ _ ⟨rfl, rfl⟩
  all_goals try (
    norm_num
    apply same_display_ok
    repeat (first
      | exact ⟨rfl, rfl⟩
      | apply at_check_inv (Chip8.same_display s)
      | split)
    done)
  · -- family 8
    norm_num
    exact same_display_ok _ _
      (and_then_inv (Chip8.same_display s) _ _ (alu_display s _ _) (fun s1 h1 => h1))
  · -- family D
    norm_num
    exact draw_display s _ _ _
  · -- family F
    norm_num
    exact same_display_ok _ _
      (and_then_inv (Chip8.same_display s) _ _ (misc_display s _) (fun s1 h1 => h1))

/-- The fetch changes only the member `opcode` and never leaves through `return`. -/
theorem fetch_display (s : Chip8) :
    s.same_display (Chip8.fetch s).state ∧ ∀ s1, Chip8.fetch s ≠ Ctl.returned s1 := by
  unfold Chip8.fetch
  constructor
  · exact at_check_inv (Chip8.same_display s) _ _ _ _ ⟨rfl, rfl⟩
      (at_check_inv (Chip8.same_display s) _ _ _ _ ⟨rfl, rfl⟩ ⟨rfl, rfl⟩)
  · exact at_check_q (fun r => ∀ s1, r ≠ Ctl.returned s1) _ _ _ _
      (fun s1 => threw_ne_returned _ _ s1)
      (at_check_q (fun r => ∀ s1, r ≠ Ctl.returned s1) _ _ _ _
        (fun s1 => threw_ne_returned _ _ s1) (fun s1 => next_ne_returned _ s1))

/-- Dirty-flag discipline of `execute`, for every state and every outcome. -/
theorem execute_display (s : Chip8) (rnd : Nat) (t : Int) :
    ((Chip8.execute s rnd t).state.draw_pending = true ∨
      (Chip8.execute s rnd t).state.draw_pending = s.draw_pending) ∧
    ((Chip8.execute s rnd t).error = none →
      (Chip8.execute s rnd t).state.draw_pending = true ∨
      (Chip8.execute s rnd t).state.screen = s.screen) := by
  obtain ⟨hfd, hfr⟩ := fetch_display s
  unfold Chip8.execute
  cases hf : Chip8.fetch s with
  | next s1 =>
    rw [hf] at hfd
    have hd := dispatch_display s1 rnd
    simp only []
    cases hdd : Chip8.dispatch s1 rnd with
    | next s2 =>
      rw [hdd] at hd
      simp only [Chip8.after_switch, Outcome.state, Outcome.error, update_timers_draw_pending,
        update_timers_screen]
      refine ⟨?_, fun _ => ?_⟩
      · rcases hd.1 with h | h
        · exact Or.inl h
        · exact Or.inr (h.trans hfd.2)
      · rcases hd.2 (fun h => h) with h | h
        · exact Or.inl h
        · exact Or.inr (h.trans hfd.1)
    | returned s2 =>
      rw [hdd] at hd
      simp only [Chip8.after_switch, Outcome.state, Outcome.error]
      refine ⟨?_, fun _ => ?_⟩
      · rcases hd.1 with h | h
        · exact Or.inl h
        · exact Or.inr (h.trans hfd.2)
      · rcases hd.2 (fun h => h) with h | h
        · exact Or.inl h
        · exact Or.inr (h.trans hfd.1)
    | threw e s2 =>
      rw [hdd] at hd
      simp only [Chip8.after_switch, Outcome.state, Outcome.error]
      refine ⟨?_, fun h => by simp at h⟩
      rcases hd.1 with h | h
      · exact Or.inl h
      · exact Or.inr (h.trans hfd.2)
  | returned s1 => exact absurd hf (hfr s1)
  | threw e s1 =>
    rw [hf] at hfd
    simp only [Outcome.state, Outcome.error]
    exact ⟨Or.inr hfd.2, fun h => by simp at h⟩

/-- C18 as stated fails.  `reset` on a machine with the pixel (3, 5) set clears the
framebuffer and then assigns `draw_pending = false`: the framebuffer has changed and the
dirty flag is false.  Also, DXYN that throws in the middle of a sprite (word 0xD002 with
I = 4095: row 0 is read at memory[4095] = 0x80 and drawn, row 1 would be read at index
4096) leaves the pixel (0, 0) flipped while `draw_pending`, set only after the loops,
is still false. -/
theorem c18_counterexample :
    (Chip8.zeroed.set_pixel 3 5).screen 3 5 = true ∧
    (Chip8.reset (Chip8.zeroed.set_pixel 3 5)).screen 3 5 = false ∧
    (Chip8.reset (Chip8.zeroed.set_pixel 3 5)).draw_pending = false ∧
    (((Chip8.zeroed.poke16 0x200 0xD002).poke 4095 0x80).set_I 4095).word_at 0xD002 ∧
    (((Chip8.zeroed.poke16 0x200 0xD002).poke 4095 0x80).set_I 4095).screen 0 0 = false ∧
    (Chip8.execute (((Chip8.zeroed.poke16 0x200 0xD002).poke 4095 0x80).set_I 4095) 0 0).error
      = some Error.out_of_range ∧
    (Chip8.execute (((Chip8.zeroed.poke16 0x200 0xD002).poke 4095 0x80).set_I 4095)
      0 0).state.screen 0 0 = true ∧
    (Chip8.execute (((Chip8.zeroed.poke16 0x200 0xD002).poke 4095 0x80).set_I 4095)
      0 0).state.draw_pending = false := by
  refine ⟨by decide, by decide, by decide, by decide, by decide, by decide, by decide,
    by decide⟩

/-- C18 (amended): if a call of `execute` returns without error and the framebuffer after
it differs from the framebuffer before it, the dirty flag is true afterwards; `execute`
never changes the dirty flag from true to false, whether it returns or throws;
`clear_screen` always leaves the dirty flag true; `reset` clears the framebuffer and
leaves the dirty flag false; `clear_draw_pending` clears the flag and nothing of the
framebuffer. -/
theorem c18_dirty_flag (s : Chip8) (rnd : Nat) (t : Int) :
    ((Chip8.execute s rnd t).error = none →
      (Chip8.execute s rnd t).state.screen ≠ s.screen →
      (Chip8.execute s rnd t).state.draw_pending = true) ∧
    (s.draw_pending = true → (Chip8.execute s rnd t).state.draw_pending = true) ∧
    (Chip8.clear_screen s).draw_pending = true ∧
    ((Chip8.reset s).draw_pending = false ∧ ∀ r c, (Chip8.reset s).screen r c = false) ∧
    ((Chip8.clear_draw_pending s).draw_pending = false ∧
      (Chip8.clear_draw_pending s).screen = s.screen) := by
  obtain ⟨h1, h2⟩ := execute_display s rnd t
  refine ⟨fun he hne => ?_, fun hs => ?_, rfl, ⟨rfl, fun _ _ => rfl⟩, ⟨rfl, rfl⟩⟩
  · rcases h2 he with h | h
    · exact h
    · exact absurd h hne
  · rcases h1 with h | h
    · exact h
    · rw [h, hs]
